import Mathlib

/-!
# Verification of the Metabase-Migrator dependency-aware migration core

Shallow embedding of the migration orchestration engine:
`MigrationManager.migrateCardWithDependencies`, `migrateCard`,
`testAndFixCard`, `CardDependencyResolver.extractCardReferences`,
`CardIdMapping`, the `SqlMigrator.translateSql` cache protocol,
the `MetadataMapper.buildMaps` table/field matching stages, the
`FieldMapperAgent.pickBestFieldHeuristic` scoring, and the
`TableMappingWorkflow` bulk-suggestion output.

External collaborators (the Metabase HTTP API, Supabase/file storage, and
the Gemini oracle) are modelled as an explicit environment of functions;
the card-id mapping store and the remote mutation log are threaded as
explicit state.  Recursion in `migrateCardWithDependencies` is modelled
with an explicit fuel parameter; termination claims are stated as: for
all fuel above an explicit bound the run yields `some` result.
-/

set_option maxHeartbeats 1000000

namespace MM

/-- JSON-like values, modelling the duck-typed `dataset_query` objects the
TypeScript code traverses.  Object fields keep insertion order, matching
`Object.values` enumeration order. -/
inductive Json where
  | null
  | bool (b : Bool)
  | num (n : Int)
  | str (s : String)
  | arr (items : List Json)
  | obj (fields : List (String × Json))
deriving Repr

/-- JavaScript truthiness of a JSON value (`if (x)`). -/
def Json.truthy : Json → Bool
  | .null => false
  | .bool b => b
  | .num n => n ≠ 0
  | .str s => s ≠ ""
  | .arr _ => true
  | .obj _ => true

/-- Property access `j[k]` on an object: first field with the given key;
`undefined` (here `none`) on anything else. -/
def Json.get : Json → String → Option Json
  | .obj fields, k => (fields.find? (fun kv => kv.1 = k)).map (·.2)
  | _, _ => none

/-- `j.k?.k2` style access chain of two keys. -/
def Json.get2 (j : Json) (k1 k2 : String) : Option Json :=
  match j.get k1 with
  | some v => v.get k2
  | none => none

/-- String content of a JSON value if it is a string. -/
def Json.asStr : Json → Option String
  | .str s => some s
  | _ => none

/-- Kernel-computable lower-casing (`s.toLowerCase()`). -/
def strToLower (s : String) : String :=
  String.mk (s.toList.map Char.toLower)

/-- Kernel-computable `s.startsWith(pat)`. -/
def strStartsWith (s pat : String) : Bool :=
  pat.toList.isPrefixOf s.toList

/-- Substring containment on character lists (the empty pattern is always
contained, as with JS `includes`). -/
def containsSub : List Char → List Char → Bool
  | l, pat =>
    if pat.isPrefixOf l then true
    else match l with
      | [] => false
      | _ :: rest => containsSub rest pat

/-- JS `s.includes(pat)`. -/
def strIncludes (s pat : String) : Bool :=
  containsSub s.toList pat.toList

/-- Kernel-computable `.trim()` (strip whitespace from both ends). -/
def strTrim (s : String) : String :=
  String.mk (((s.toList.dropWhile Char.isWhitespace).reverse.dropWhile
    Char.isWhitespace).reverse)

/-- `parseInt` on the text after the `card__` sentinel: skip leading
whitespace, then read the longest digit prefix (NaN when there is none).
Negative references are outside the modelled id range. -/
def parseIntPrefix (s : String) : Option Nat :=
  let t := s.toList.dropWhile (fun c => c = ' ' ∨ c = '\t' ∨ c = '\n' ∨ c = '\r')
  let ds := t.takeWhile Char.isDigit
  if ds.isEmpty then none
  else some (ds.foldl (fun acc c => acc * 10 + (c.toNat - 48)) 0)

/-- A string node `card__<id>` denotes a reference to card `<id>`
(`obj.startsWith('card__')` followed by `parseInt(obj.replace('card__',''))`). -/
def parseCardRef (s : String) : Option Nat :=
  if strStartsWith s "card__" then parseIntPrefix (String.mk (s.toList.drop 6)) else none

mutual
/-- Traversal kernel of `CardDependencyResolver.extractCardReferences`:
collect `card__N` references depth-first, deduplicating while preserving
first-encounter order (a JS `Set` preserves insertion order). -/
def collectRefs : Json → List Nat → List Nat
  | .str s, acc =>
      match parseCardRef s with
      | some n => if n ∈ acc then acc else acc ++ [n]
      | none => acc
  | .arr items, acc => collectRefsList items acc
  | .obj fields, acc => collectRefsFields fields acc
  | _, acc => acc

def collectRefsList : List Json → List Nat → List Nat
  | [], acc => acc
  | j :: rest, acc => collectRefsList rest (collectRefs j acc)

def collectRefsFields : List (String × Json) → List Nat → List Nat
  | [], acc => acc
  | kv :: rest, acc => collectRefsFields rest (collectRefs kv.2 acc)
end

/-- `CardDependencyResolver.extractCardReferences(datasetQuery)`. -/
def extractCardReferences (datasetQuery : Json) : List Nat :=
  collectRefs datasetQuery []

/-! ## Shared result types (src/types.ts) -/

/-- `UnmatchedTable` from `src/types.ts`. -/
structure UnmatchedTable where
  sourceTableId : Nat
  sourceTableName : String
  schema : String
deriving Repr, DecidableEq

/-- `UnmatchedField` from `src/types.ts`. -/
structure UnmatchedField where
  sourceFieldId : Nat
  sourceFieldName : String
  sourceTableName : String
  sourceTableId : Nat
deriving Repr, DecidableEq

/-- `MigrationErrorCode` enum from `src/types.ts`.  Note that the enum has
no member for circular dependencies. -/
inductive ErrCode where
  | MISSING_MAPPING_TABLE
  | MISSING_MAPPING_FIELD
  | MISSING_TARGET_TABLE
  | DEPENDENCY_NOT_MIGRATED
  | SQL_TRANSLATION_ERROR
  | METABASE_API_ERROR
  | UNKNOWN_ERROR
deriving Repr, DecidableEq

/-- `NativeSqlStatus` from `src/types.ts`. -/
inductive NativeStatus where
  | ok
  | needs_manual_review
  | unsupported
deriving Repr, DecidableEq

/-- The `status` tag of a `MigrationResponse`. -/
inductive RStatus where
  | ok
  | failed
  | already_migrated
deriving Repr, DecidableEq

/-- `MigrationResponse` from `src/types.ts`.  The loosely shaped `details`
payload is split into its two concrete uses in `MigrationManager`:
`details: depResult` (a child response) and
`details: { ...x, dependencies }` (a list of dependency responses).
Defined as an inductive because the details payload is recursive. -/
inductive MigrationResponse where
  | mk
    (status : RStatus)
    (errorCode : Option ErrCode)
    (message : Option String)
    (oldId : Option Nat)
    (cardName : Option String)
    (newId : Option Nat)
    (cardUrl : Option String)
    (originalQuery : Option Json)
    (migratedQuery : Option Json)
    (unmatchedTables : List UnmatchedTable)
    (unmatchedFields : List UnmatchedField)
    (warnings : Option (List String))
    (isNativeSql : Option Bool)
    (autoFixApplied : Option Bool)
    (nativeSqlStatus : Option NativeStatus)
    (detailsChild : Option MigrationResponse)
    (detailsDeps : Option (List MigrationResponse))

namespace MigrationResponse

def status : MigrationResponse → RStatus
  | .mk s _ _ _ _ _ _ _ _ _ _ _ _ _ _ _ _ => s

def errorCode : MigrationResponse → Option ErrCode
  | .mk _ e _ _ _ _ _ _ _ _ _ _ _ _ _ _ _ => e

def message : MigrationResponse → Option String
  | .mk _ _ m _ _ _ _ _ _ _ _ _ _ _ _ _ _ => m

def oldId : MigrationResponse → Option Nat
  | .mk _ _ _ o _ _ _ _ _ _ _ _ _ _ _ _ _ => o

def cardName : MigrationResponse → Option String
  | .mk _ _ _ _ n _ _ _ _ _ _ _ _ _ _ _ _ => n

def newId : MigrationResponse → Option Nat
  | .mk _ _ _ _ _ n _ _ _ _ _ _ _ _ _ _ _ => n

def cardUrl : MigrationResponse → Option String
  | .mk _ _ _ _ _ _ u _ _ _ _ _ _ _ _ _ _ => u

def originalQuery : MigrationResponse → Option Json
  | .mk _ _ _ _ _ _ _ q _ _ _ _ _ _ _ _ _ => q

def migratedQuery : MigrationResponse → Option Json
  | .mk _ _ _ _ _ _ _ _ q _ _ _ _ _ _ _ _ => q

def unmatchedTables : MigrationResponse → List UnmatchedTable
  | .mk _ _ _ _ _ _ _ _ _ t _ _ _ _ _ _ _ => t

def unmatchedFields : MigrationResponse → List UnmatchedField
  | .mk _ _ _ _ _ _ _ _ _ _ f _ _ _ _ _ _ => f

def warnings : MigrationResponse → Option (List String)
  | .mk _ _ _ _ _ _ _ _ _ _ _ w _ _ _ _ _ => w

def isNativeSql : MigrationResponse → Option Bool
  | .mk _ _ _ _ _ _ _ _ _ _ _ _ b _ _ _ _ => b

def autoFixApplied : MigrationResponse → Option Bool
  | .mk _ _ _ _ _ _ _ _ _ _ _ _ _ b _ _ _ => b

def nativeSqlStatus : MigrationResponse → Option NativeStatus
  | .mk _ _ _ _ _ _ _ _ _ _ _ _ _ _ s _ _ => s

def detailsChild : MigrationResponse → Option MigrationResponse
  | .mk _ _ _ _ _ _ _ _ _ _ _ _ _ _ _ c _ => c

def detailsDeps : MigrationResponse → Option (List MigrationResponse)
  | .mk _ _ _ _ _ _ _ _ _ _ _ _ _ _ _ _ d => d

/-- Walk the `details` chain of nested child responses to the innermost
failure (the `details: depResult` chain built by dependency failures). -/
def innermost : MigrationResponse → MigrationResponse
  | .mk s e m o n ni u q mq t f w b a ns c d =>
      match c with
      | some child => innermost child
      | none => .mk s e m o n ni u q mq t f w b a ns c d

end MigrationResponse

/-- `{ status: 'failed', errorCode, message }` with no other fields. -/
def failResp (c : ErrCode) (m : String) : MigrationResponse :=
  .mk .failed (some c) (some m) none none none none none none [] [] none none none none none none

/-! ## Cards, card-id mapping store, remote-effect state, environment -/

/-- The fields of a fetched card that `MigrationManager` reads. -/
structure CardRec where
  id : Nat
  name : String
  description : Option String
  display : Json
  visualization_settings : Json
  dataset_query : Option Json
  collection_id : Option Int
  collection_position : Option Int
deriving Repr

/-- The `newCard` payload built in `migrateCard` and sent to
`createCard`/`updateCard`. -/
structure CardDef where
  name : String
  description : String
  display : Json
  visualization_settings : Json
  dataset_query : Json
  collection_id : Option Int
  collection_position : Option Int
deriving Repr

/-- Log entry for a remote mutation of the target Metabase instance. -/
inductive RemoteOp where
  | create (cd : CardDef)
  | update (id : Nat) (cd : CardDef)
  | updateQuery (id : Nat) (q : Json)
deriving Repr

/-- Association-list lookup, modelling `Map.get` of the card-id mapping
(first entry with the key wins; an insertion-ordered `Map` never holds
two entries for a key). -/
def mapLookup : List (Nat × Nat) → Nat → Option Nat
  | [], _ => none
  | p :: rest, k => if p.1 = k then some p.2 else mapLookup rest k

/-- `Map.has`. -/
def mapHas (m : List (Nat × Nat)) (k : Nat) : Bool :=
  (mapLookup m k).isSome

/-- `Map.set` / the storage upsert keyed on the source card id: replace the
entry in place when the key is present, append otherwise. -/
def mapSet : List (Nat × Nat) → Nat → Nat → List (Nat × Nat)
  | [], k, v => [(k, v)]
  | p :: rest, k, v => if p.1 = k then (k, v) :: rest else p :: mapSet rest k v

/-- Number of entries the mapping store holds for a given source id. -/
def countKey : List (Nat × Nat) → Nat → Nat
  | [], _ => 0
  | p :: rest, k => (if p.1 = k then 1 else 0) + countKey rest k

/-- Threaded state: the persistent card-id mapping (`CardIdMapping` writes
through to storage on every `set`), the snapshot map the shared
`MbqlMigrator` instance currently holds (updated by `setCardIdMap` at
every `migrateCardWithDependencies` entry), the log of remote mutations,
and the log of verification executions (`queryCard`). -/
structure St where
  mapping : List (Nat × Nat)
  mbqlMap : List (Nat × Nat)
  ops : List RemoteOp
  queries : List Nat
deriving Repr

/-- Result of `MbqlMigrator.migrateQuery`. -/
structure MbqlResult where
  query : Json
  warnings : List String
  unmatchedTables : List UnmatchedTable
  unmatchedFields : List UnmatchedField

/-- The external collaborators, as pure behaviour functions:
the Metabase metadata source (finitely many cards, possible transient
fetch failures, card creation/update/execution), the structural rewriter
(`MbqlMigrator.migrateQuery`, parameterised by the card-id map snapshot it
was given), the text transformer (`SqlMigrator.applyTransforms`, not part
of src), the repair oracle (`SqlMigrator.fixWithAI`), and the diagnostic
enrichment lookups of `enrichUnmatchedItems`.  `createCardOk` receives the
number of prior creations so fresh ids can be modelled; `queryCardErr`,
`updateQueryOk` and `fixWithAI` receive the attempt index so behaviour
that varies over time can be modelled. -/
structure Env where
  cards : List CardRec
  fetchFails : Nat → Bool
  migrateQuery : List (Nat × Nat) → Json → MbqlResult
  applyTransforms : String → String
  newDbId : Int
  metabaseBaseUrl : String
  clientBaseUrl : String
  createCardOk : CardDef → Nat → Option Nat
  updateCardOk : Nat → CardDef → Bool
  queryCardErr : Nat → Nat → Option String
  updateQueryOk : Nat → Nat → Bool
  fixWithAI : String → String → String → Nat → Option String
  sqlContext : String
  enrichTable : UnmatchedTable → UnmatchedTable
  enrichField : UnmatchedField → UnmatchedField

/-- `client.getCard(id)`: `none` models a thrown fetch error (missing card
or transient failure). -/
def getCardEnv (env : Env) (id : Nat) : Option CardRec :=
  if env.fetchFails id then none else env.cards.find? (fun c => c.id = id)

/-- Number of `createCard` calls recorded so far (used to hand fresh ids
to `Env.createCardOk`). -/
def createCount (st : St) : Nat :=
  st.ops.countP (fun op => match op with | .create _ => true | _ => false)

/-- Object spread-with-override `{...j, k: v}`: replace the field in place
when present, append otherwise (spreading a non-object contributes no
fields). -/
def Json.setField : Json → String → Json → Json
  | .obj fs, k, v =>
      if (fs.find? (fun kv => kv.1 = k)).isSome then
        .obj (fs.map (fun kv => if kv.1 = k then (k, v) else kv))
      else .obj (fs ++ [(k, v)])
  | _, k, v => .obj [(k, v)]

/-- `MigrationManager.cleanVisualizationSettings`: drop the five listed
keys, but (as in the source) only when their value is truthy; falsy
settings yield `{}`. -/
def cleanVisualizationSettings (settings : Json) : Json :=
  if ¬ settings.truthy then .obj []
  else match settings with
    | .obj fs =>
        .obj (fs.filter (fun kv =>
          ¬ (kv.1 ∈ ["column_settings", "table.columns", "graph.dimensions",
                      "graph.metrics", "click_behavior"] ∧ kv.2.truthy)))
    | _ => .obj []

/-- `q.native?.query` as a string. -/
def nativeQueryStr (q : Json) : String :=
  match q.get2 "native" "query" with
  | some (.str s) => s
  | _ => ""

/-- The guard `originalQuery.type !== 'native' || !originalQuery.native?.query`
of the repair loop, negated: the query is raw text with a truthy body. -/
def isNativeWithQuery (q : Json) : Bool :=
  match q.get "type" with
  | some (.str "native") => nativeQueryStr q ≠ ""
  | _ => false

/-- Loop body of `MigrationManager.testAndFixCard`: execute the card, and
on error repair the SQL through the oracle, at most `maxRetries` attempts.
Returns `none` when `updateCard` inside the loop throws (the exception
propagates to `migrateCard`'s outer catch); otherwise the card id, which
the source returns on every path. -/
def testAndFixGoAux (env : Env) (cardId : Nat) (originalQuery : Json)
    (maxRetries : Nat) : Nat → Nat → St → Option Nat × St
  | fuel, attempt, st =>
    if maxRetries < attempt then (some cardId, st)
    else
      let st1 : St := { st with queries := st.queries ++ [cardId] }
      match env.queryCardErr cardId attempt with
      | none => (some cardId, st1)
      | some errMsg =>
        if attempt = maxRetries then (some cardId, st1)
        else if ¬ isNativeWithQuery originalQuery then (some cardId, st1)
        else
          match env.fixWithAI (nativeQueryStr originalQuery) (nativeQueryStr originalQuery)
              errMsg attempt with
          | none => (some cardId, st1)
          | some fixedSQL =>
            if fixedSQL = "" then (some cardId, st1)
            else if env.updateQueryOk cardId attempt then
              let newQ := originalQuery.setField "native"
                (((originalQuery.get "native").getD .null).setField "query" (.str fixedSQL))
              let st2 : St := { st1 with ops := st1.ops ++ [.updateQuery cardId newQ] }
              match fuel with
              | fuel + 1 => testAndFixGoAux env cardId originalQuery maxRetries fuel (attempt + 1) st2
              | 0 => (some cardId, st2)
            else (none, st1)

/-- The `for (attempt = 1; attempt <= maxRetries; ...)` loop, entered with
the remaining-attempt budget as structural fuel (the fuel-exhausted
branch above is unreachable when `fuel = maxRetries - attempt`). -/
def testAndFixGo (env : Env) (cardId : Nat) (originalQuery : Json)
    (maxRetries : Nat) (attempt : Nat) (st : St) : Option Nat × St :=
  testAndFixGoAux env cardId originalQuery maxRetries (maxRetries - attempt) attempt st

/-- `MigrationManager.testAndFixCard(cardId, originalQuery)` with the
default `maxRetries = 3`, starting at attempt 1. -/
def testAndFixCard (env : Env) (cardId : Nat) (originalQuery : Json) (st : St) :
    Option Nat × St :=
  testAndFixGo env cardId originalQuery 3 1 st

/-- Dry-run success response of `migrateCard`. -/
def okDryResp (dq mq : Json) (ws : List String) (isNative : Bool) : MigrationResponse :=
  .mk .ok none none none none none none (some dq) (some mq) [] []
    (some ws) (some isNative) (some false) (some .ok) none none

/-- Post-commit success response of `migrateCard`. -/
def okCommitResp (env : Env) (fixedId : Nat) (dq mq : Json) (ws : List String)
    (isNative : Bool) : MigrationResponse :=
  .mk .ok none none none none (some fixedId)
    (some (env.metabaseBaseUrl ++ "/question/" ++ toString fixedId))
    (some dq) (some mq) [] [] (some ws) (some isNative) (some false) (some .ok) none none

/-- Missing-mapping failure response of `migrateCard`. -/
def unmatchedFailResp (c : ErrCode) (m : String) (uT : List UnmatchedTable)
    (uF : List UnmatchedField) (dq mq : Json) : MigrationResponse :=
  .mk .failed (some c) (some m) none none none none (some dq) (some mq) uT uF
    none none none none none none

/-- Creation/update failure response of `migrateCard`. -/
def apiFailResp (dq mq : Json) : MigrationResponse :=
  .mk .failed (some .METABASE_API_ERROR) (some "Metabase API error") none none none none
    (some dq) (some mq) [] [] none none none none none none

/-- Outer-catch response of `migrateCard` (an exception escaped the step
logic, e.g. `updateCard` threw inside the repair loop). -/
def outerCatchResp (dq : Json) : MigrationResponse :=
  .mk .failed (some .UNKNOWN_ERROR) (some "Error") none none none none
    (some dq) none [] [] none none none none none none

/-- `enrichUnmatchedItems` on the unmatched-table list: each entry whose
name is a placeholder is re-resolved against remote metadata (modelled by
`Env.enrichTable`; lookup failures leave the entry unchanged, which the
environment function can also express). -/
def enrichTables (env : Env) (l : List UnmatchedTable) : List UnmatchedTable :=
  l.map (fun t =>
    if strStartsWith t.sourceTableName "Table " ∨ t.sourceTableName = "Unknown" then
      env.enrichTable t
    else t)

/-- `enrichUnmatchedItems` on the unmatched-field list. -/
def enrichFields (env : Env) (l : List UnmatchedField) : List UnmatchedField :=
  l.map (fun f =>
    if strStartsWith f.sourceFieldName "Field " ∨ f.sourceFieldName = "Unknown" ∨
        f.sourceTableName = "Unknown Table" ∨ f.sourceTableId = 0 then
      env.enrichField f
    else f)

/-- Rewrite-stage outcome inside `migrateCard`, before classification. -/
structure RewriteOut where
  mq : Json
  ws : List String
  uT : List UnmatchedTable
  uF : List UnmatchedField
  isNative : Bool

/-- The rewrite-dispatch stage of `migrateCard` (step 5 of the pipeline):
MBQL queries go through `MbqlMigrator.migrateQuery` (with the card-id map
snapshot the shared migrator currently holds), native queries through the
empty-check and `SqlMigrator.applyTransforms`; anything else is an
unknown query type. -/
def rewriteStage (env : Env) (st : St) (dq : Json) : Except MigrationResponse RewriteOut :=
  match dq.get "type" with
  | some (.str "query") =>
    let r := env.migrateQuery st.mbqlMap dq
    .ok ⟨r.query, r.warnings, r.unmatchedTables, r.unmatchedFields, false⟩
  | some (.str "native") =>
    let sql := nativeQueryStr dq
    if sql = "" then .error (failResp .UNKNOWN_ERROR "Native query is empty")
    else
      let finalSql := env.applyTransforms sql
      let tt : Json :=
        match dq.get2 "native" "template-tags" with
        | some v => if v.truthy then v else .obj []
        | none => .obj []
      .ok ⟨.obj [("database", .num env.newDbId), ("type", .str "native"),
                 ("native", .obj [("query", .str finalSql), ("template-tags", tt)])],
           [], [], [], true⟩
  | _ => .error (failResp .UNKNOWN_ERROR "Unknown query type")

/-- `MigrationManager.migrateCard`.  Faithful translation of the step
pipeline: dispatch on query kind, classify unmatched objects (fatal even
in dry run), stop before any remote call when `dryRun`, otherwise
create/update the target card, verify-and-repair, and only then commit
the card-id mapping entry. -/
def migrateCard (env : Env) (card : CardRec) (dryRun : Bool)
    (collectionId : Option Int) (force : Bool) (st : St) : MigrationResponse × St :=
  match card.dataset_query with
  | none => (failResp .UNKNOWN_ERROR "Card missing dataset_query", st)
  | some dq =>
    if ¬ dq.truthy then (failResp .UNKNOWN_ERROR "Card missing dataset_query", st)
    else
      match rewriteStage env st dq with
      | .error r => (r, st)
      | .ok rw =>
        let uT := if rw.uT ≠ [] ∨ rw.uF ≠ [] then enrichTables env rw.uT else rw.uT
        let uF := if rw.uT ≠ [] ∨ rw.uF ≠ [] then enrichFields env rw.uF else rw.uF
        if uT ≠ [] then
          (unmatchedFailResp .MISSING_MAPPING_TABLE "Unmatched tables found" uT uF dq rw.mq, st)
        else if uF ≠ [] then
          (unmatchedFailResp .MISSING_MAPPING_FIELD "Unmatched fields found" uT uF dq rw.mq, st)
        else if dryRun then
          (okDryResp dq rw.mq rw.ws rw.isNative, st)
        else
          let cardName :=
            if strIncludes card.name "[ClickHouse]" then card.name
            else card.name ++ " [ClickHouse]"
          let newCard : CardDef :=
            { name := cardName
              description :=
                match card.description with
                | some d => if d ≠ "" then d else "Migrated from card " ++ toString card.id
                | none => "Migrated from card " ++ toString card.id
              display := card.display
              visualization_settings := cleanVisualizationSettings card.visualization_settings
              dataset_query := rw.mq
              collection_id := if collectionId ≠ none then collectionId else card.collection_id
              collection_position := card.collection_position }
          let existingNewId := mapLookup st.mapping card.id
          let created? : Option (Nat × St) :=
            match existingNewId with
            | some eid =>
              -- `existingNewId && force`: a 0 id is falsy in JS
              if eid ≠ 0 ∧ force then
                if env.updateCardOk eid newCard then
                  some (eid, { st with ops := st.ops ++ [.update eid newCard] })
                else none
              else
                match env.createCardOk newCard (createCount st) with
                | some nid => some (nid, { st with ops := st.ops ++ [.create newCard] })
                | none => none
            | none =>
              match env.createCardOk newCard (createCount st) with
              | some nid => some (nid, { st with ops := st.ops ++ [.create newCard] })
              | none => none
          match created? with
          | none => (apiFailResp dq rw.mq, st)
          | some (createdId, st1) =>
            match testAndFixCard env createdId rw.mq st1 with
            | (none, st2) => (outerCatchResp dq, st2)
            | (some fixedCardId, st2) =>
              let st3 : St := { st2 with mapping := mapSet st2.mapping card.id fixedCardId }
              (okCommitResp env fixedCardId dq rw.mq rw.ws rw.isNative, st3)

/-- The `already_migrated` response of `migrateCardWithDependencies`. -/
def alreadyResp (env : Env) (cardId : Nat) (cardName : String) (newCardId : Nat)
    (oq : Option Json) (deps : List MigrationResponse) : MigrationResponse :=
  .mk .already_migrated none none (some cardId) (some cardName) (some newCardId)
    (some (env.clientBaseUrl ++ "/question/" ++ toString newCardId))
    oq none [] [] none none none none none (some deps)

/-- The dependency-failure response: `details` is the child result. -/
def depFailResp (depId : Nat) (child : MigrationResponse) : MigrationResponse :=
  .mk .failed (some .DEPENDENCY_NOT_MIGRATED)
    (some ("Dependency card " ++ toString depId ++ " failed to migrate"))
    none none none none none none [] [] none none none none (some child) none

/-- The final spread `{...result, oldId, cardName, originalQuery,
details: {...result.details, dependencies}}` of
`migrateCardWithDependencies` (the `migrateCard` result never carries
`details`, so the merge adds the dependency list). -/
def mergeResp (r : MigrationResponse) (cardId : Nat) (cardName : String)
    (oq : Option Json) (deps : List MigrationResponse) : MigrationResponse :=
  match r with
  | .mk s ec ms _ _ ni cu _ mq uT uF ws isN af nss dc _ =>
    .mk s ec ms (some cardId) (some cardName) ni cu oq mq uT uF ws isN af nss dc (some deps)

/-- The dependency loop of `migrateCardWithDependencies`: for each
extracted reference that has no card-id mapping entry yet, recurse (the
recursive step is passed in as `migrate`, which receives the dependency
id and the current visited set and state); a failed dependency
short-circuits with `DEPENDENCY_NOT_MIGRATED`.  Returns the early-exit
response (`Sum.inl`) or the accumulated dependency results (`Sum.inr`),
together with the visited set and state at that point (`visited` is a
single shared mutable `Set` in the source). -/
def depsLoopF
    (migrate : Nat → List Nat → St → Option (MigrationResponse × List Nat × St)) :
    List Nat → List MigrationResponse → List Nat → St →
    Option ((MigrationResponse ⊕ List MigrationResponse) × List Nat × St)
  | [], acc, visited, st => some (.inr acc, visited, st)
  | depId :: rest, acc, visited, st =>
    if mapHas st.mapping depId then
      depsLoopF migrate rest acc visited st
    else
      match migrate depId visited st with
      | none => none
      | some (depResult, visited1, st1) =>
        if depResult.status = .failed then
          some (.inl (depFailResp depId depResult), visited1, st1)
        else
          depsLoopF migrate rest (acc ++ [depResult]) visited1 st1

/-- `MigrationManager.migrateCardWithDependencies(cardId, dryRun, visited,
collectionId, force)`, with an explicit fuel bound on recursion depth
(`none` = fuel exhausted; the termination theorems show a uniform bound
suffices).  Each entry reloads the mapping (a no-op here because `set`
writes through and nothing else writes) and points the shared
`MbqlMigrator` at a snapshot of the current mapping. -/
def migrateF (env : Env) : Nat → Nat → Bool → List Nat → Option Int → Bool → St →
    Option (MigrationResponse × List Nat × St)
  | 0, _, _, _, _, _, _ => none
  | fuel + 1, cardId, dryRun, visited, collectionId, force, st =>
    let st := { st with mbqlMap := st.mapping }
    if cardId ∈ visited then
      some (failResp .UNKNOWN_ERROR "Circular dependency detected", visited, st)
    else
      let visited := visited ++ [cardId]
      match getCardEnv env cardId with
      | none =>
        some (failResp .METABASE_API_ERROR
          ("Failed to fetch card " ++ toString cardId), visited, st)
      | some card =>
        let deps := extractCardReferences (card.dataset_query.getD .null)
        match depsLoopF
            (fun depId v s => migrateF env fuel depId dryRun v collectionId false s)
            deps [] visited st with
        | none => none
        | some (.inl earlyFail, visited1, st1) => some (earlyFail, visited1, st1)
        | some (.inr depResults, visited1, st1) =>
          match mapLookup st1.mapping cardId with
          | some newCardId =>
            if ¬ force then
              some (alreadyResp env cardId card.name newCardId card.dataset_query depResults,
                visited1, st1)
            else
              let (result, st2) := migrateCard env card dryRun collectionId force st1
              some (mergeResp result cardId card.name card.dataset_query depResults,
                visited1, st2)
          | none =>
            let (result, st2) := migrateCard env card dryRun collectionId force st1
            some (mergeResp result cardId card.name card.dataset_query depResults,
              visited1, st2)

/-- Top-level call: `visited` defaults to a fresh empty set,
`collectionId` to `null`, `force` to `false`. -/
def migrateTop (env : Env) (fuel : Nat) (cardId : Nat) (dryRun : Bool) (st : St) :
    Option (MigrationResponse × List Nat × St) :=
  migrateF env fuel cardId dryRun [] none false st

/-! ## `SqlMigrator.translateSql` and the translation cache -/

/-- The Gemini oracle of `SqlMigrator`, indexed by the global number of
calls made so far, so time-varying behaviour (rate limits, then success)
can be modelled.  `Except.error` models a thrown API error. -/
structure SqlEnv where
  oracle : Nat → Except String String

/-- Translation-cache state: the keyed store behind
`storage.getSqlTranslation`/`saveSqlTranslation`, plus the count of
oracle invocations made. -/
structure TransSt where
  cache : List (String × String)
  oracleCalls : Nat
deriving Repr, DecidableEq

/-- `storage.getSqlTranslation(cacheKey)` (`null` on a miss). -/
def cacheLookup (c : List (String × String)) (k : String) : Option String :=
  (c.find? (fun p => p.1 = k)).map (·.2)

/-- `storage.saveSqlTranslation(cacheKey, text)`: an upsert keyed on the
cache key. -/
def cachePut (c : List (String × String)) (k v : String) : List (String × String) :=
  if (c.find? (fun p => p.1 = k)).isSome then
    c.map (fun p => if p.1 = k then (k, v) else p)
  else c ++ [(k, v)]

/-- `generateCacheKey(sql, context)` = `sha256(sql + context)`; the hash
is modelled as the (injective-by-assumption) concatenated text itself. -/
def generateCacheKey (sql context : String) : String :=
  sql ++ context

/-- One left-to-right, non-overlapping, case-insensitive removal pass of
`pat` (JS `text.replace(/pat/gi, '')`); `fuel` only bounds the recursion
(structurally, so the kernel can evaluate it) and is initialised to the
text length, which the scan never exceeds. -/
def stripPatCIAux (pat : List Char) : Nat → List Char → List Char
  | _, [] => []
  | 0, l => l
  | fuel + 1, c :: rest =>
    if pat.length ≠ 0 ∧ pat.length ≤ (c :: rest).length ∧
        ((c :: rest).take pat.length).map Char.toLower = pat.map Char.toLower then
      stripPatCIAux pat fuel ((c :: rest).drop pat.length)
    else c :: stripPatCIAux pat fuel rest

/-- `text.replace(/pat/gi, '')`. -/
def stripPatCI (pat l : List Char) : List Char :=
  stripPatCIAux pat l.length l

/-- `text.replace(/```sql/gi, '').replace(/```/g, '').trim()`. -/
def stripFences (t : String) : String :=
  strTrim (String.mk (stripPatCI "```".toList
    (stripPatCI "```sql".toList t.toList)))

/-- The rate-limit test of the retry loop: the thrown message contains
`429`, `Too Many Requests` or `Resource exhausted`. -/
def isRateLimited (msg : String) : Bool :=
  strIncludes msg "429" ∨ strIncludes msg "Too Many Requests" ∨
    strIncludes msg "Resource exhausted"

/-- The `while (true)` oracle loop of `translateSql`: call the oracle; on
success strip code fences, write through to the cache and return; on a
rate-limit error retry (`retries < maxRetries`, delay elided); other
errors surface immediately. -/
def translateGoAux (env : SqlEnv) (cacheKey : String) (maxRetries : Nat) :
    Nat → Nat → TransSt → Except String String × TransSt
  | fuel, retries, st =>
    let idx := st.oracleCalls
    let st1 : TransSt := { st with oracleCalls := st.oracleCalls + 1 }
    match env.oracle idx with
    | .ok raw =>
      let text := stripFences raw
      (.ok text, { st1 with cache := cachePut st1.cache cacheKey text })
    | .error msg =>
      if isRateLimited msg ∧ retries < maxRetries then
        match fuel with
        | fuel + 1 => translateGoAux env cacheKey maxRetries fuel (retries + 1) st1
        | 0 => (.error ("[GoogleGenerativeAI Error]: " ++ msg), st1)
      else
        (.error ("[GoogleGenerativeAI Error]: " ++ msg), st1)

/-- The retry loop, entered with the retry budget as structural fuel
(`fuel = maxRetries - retries` always suffices, so the fuel-exhausted
branch above is unreachable from here). -/
def translateGo (env : SqlEnv) (cacheKey : String) (maxRetries retries : Nat)
    (st : TransSt) : Except String String × TransSt :=
  translateGoAux env cacheKey maxRetries (maxRetries - retries) retries st

/-- `SqlMigrator.translateSql(originalSql, context)` (the retrying variant
of `src/services/SqlMigrator.ts`): check the translation cache first — a
cached empty string is falsy and treated as a miss — then run the oracle
loop with `maxRetries = 3`. -/
def translateSql (env : SqlEnv) (originalSql context : String) (st : TransSt) :
    Except String String × TransSt :=
  let cacheKey := generateCacheKey originalSql context
  match cacheLookup st.cache cacheKey with
  | some cached =>
    if cached ≠ "" then (.ok cached, st)
    else translateGo env cacheKey 3 0 st
  | none => translateGo env cacheKey 3 0 st

/-! ## `MetadataMapper.buildMaps`: table and field matching stages -/

/-- Table catalog entry as read from `getTables` (id, schema, name). -/
structure TableMeta where
  id : Nat
  schema : String
  name : String
deriving Repr, DecidableEq

/-- Field catalog entry as read from database metadata. -/
structure FieldMeta where
  id : Nat
  name : String
  display_name : Option String
deriving Repr, DecidableEq

/-- Lower-case and remove whitespace and underscores
(`.toLowerCase().replace(/[\s_]+/g, '')`). -/
def normName (s : String) : String :=
  String.mk ((s.toList.map Char.toLower).filter
    (fun c => ¬ (c = ' ' ∨ c = '_' ∨ c = '\t' ∨ c = '\n' ∨ c = '\r')))

/-- The table fallback matcher of `buildMaps` (stage 2, for tables the
confirmed workflow mappings did not cover): exact `(schema, name)` match
first, then a loose match on `name` alone applied only when exactly one
candidate has that name. -/
def tableFallbackMatch (oldTable : TableMeta) (newTables : List TableMeta) :
    Option TableMeta :=
  match newTables.find? (fun t => t.schema = oldTable.schema ∧ t.name = oldTable.name) with
  | some m => some m
  | none =>
    let potentialMatches := newTables.filter (fun t => t.name = oldTable.name)
    if potentialMatches.length = 1 then potentialMatches.head? else none

/-- Lookup in the `Map` keyed by lower-cased field name: `Map.set` makes
the last field with a given key win. -/
def lastByLowerName (newFields : List FieldMeta) (key : String) : Option FieldMeta :=
  (newFields.filter (fun f => strToLower f.name = key)).getLast?

/-- Lookup in the `Map` keyed by lower-cased display name (only fields
with a truthy `display_name` are entered). -/
def lastByLowerDisplay (newFields : List FieldMeta) (key : String) : Option FieldMeta :=
  (newFields.filter (fun f =>
    match f.display_name with
    | some d => d ≠ "" ∧ strToLower d = key
    | none => false)).getLast?

/-- The field matcher of `buildMaps` (one old field against the mapped
new table's fields): exact lower-cased name, then exact lower-cased
display name, then whitespace/underscore-insensitive name — the last
stage takes the FIRST qualifying candidate (`Array.prototype.find`),
with no uniqueness requirement. -/
def fieldStageMatch (oldName : String) (oldDisplay : Option String)
    (newFields : List FieldMeta) : Option FieldMeta :=
  let nameKey := strToLower oldName
  let displayKey := strToLower (oldDisplay.getD "")
  match lastByLowerName newFields nameKey with
  | some m => some m
  | none =>
    if displayKey ≠ "" ∧ (lastByLowerDisplay newFields displayKey).isSome then
      lastByLowerDisplay newFields displayKey
    else
      newFields.find? (fun f => normName f.name = normName nameKey)

/-! ## `FieldMapperAgent.pickBestFieldHeuristic` and the bulk-suggestion
workflow (`TableMappingWorkflow`) -/

/-- JS `s.includes(pat)` (the empty pattern is always contained). -/
def jsIncludes (s pat : String) : Bool :=
  if pat = "" then true else strIncludes s pat

/-- A scored candidate entry pushed by `pickBestFieldHeuristic`. -/
structure ScoredCand where
  f : FieldMeta
  score : ℚ
  reason : String
deriving Repr, DecidableEq

/-- The entries `pickBestFieldHeuristic` pushes for one candidate field:
exact name 1.0 (and nothing else, `continue`), otherwise exact display
name 0.95, normalized name 0.92 and substring overlap 0.75, all that
apply. -/
def heuristicEntriesFor (oldName oldDisplay : String) (f : FieldMeta) :
    List ScoredCand :=
  let oldNameL := strToLower oldName
  let oldDisplayL := strToLower oldDisplay
  let normalizedOld := normName oldName
  let name := strToLower f.name
  let display := strToLower (f.display_name.getD "")
  let normalizedNew := normName f.name
  if name = oldNameL then [⟨f, 1, "exact name match"⟩]
  else
    (if display ≠ "" ∧ display = oldDisplayL then
      [⟨f, 0.95, "exact display_name match"⟩] else []) ++
    (if normalizedNew ≠ "" ∧ normalizedNew = normalizedOld then
      [⟨f, 0.92, "normalized name match"⟩] else []) ++
    (if jsIncludes name oldNameL ∨ jsIncludes oldNameL name then
      [⟨f, 0.75, "partial name overlap"⟩] else [])

/-- Stable insert for a descending sort: the new element goes before the
first strictly-smaller key, after earlier equal keys it was behind. -/
def insertDescBy (key : α → ℚ) (x : α) : List α → List α
  | [] => [x]
  | y :: ys => if key y < key x then x :: y :: ys else y :: insertDescBy key x ys

/-- Stable descending sort (insertion sort), modelling V8's stable
`Array.prototype.sort` with comparator `(a, b) => b.score - a.score`. -/
def stableSortDescBy (key : α → ℚ) : List α → List α
  | [] => []
  | x :: xs => insertDescBy key x (stableSortDescBy key xs)

/-- `pickBestFieldHeuristic(oldField, newFields)`: build all scored
entries in field order, sort by score descending, return the best
(`null` when no rule fired for any candidate). -/
def pickBestFieldHeuristic (oldName oldDisplay : String)
    (newFields : List FieldMeta) : Option (Nat × ℚ × String) :=
  let candidates := newFields.flatMap (heuristicEntriesFor oldName oldDisplay)
  match stableSortDescBy (fun c => c.score) candidates with
  | [] => none
  | best :: _ => some (best.f.id, best.score, best.reason)

/-- Table descriptor used by `TableMappingWorkflow`. -/
structure TableInfoW where
  id : Nat
  schema : String
  name : String
deriving Repr, DecidableEq

/-- One scored similarity row of the workflow. -/
structure SimRow where
  table : TableInfoW
  similarity : ℚ
  score : ℚ
deriving Repr, DecidableEq

/-- An `alternatives` entry of `table_mapping_workflow.json`. -/
structure AltEntry where
  table_id : Nat
  table_name : String
  score : ℚ
deriving Repr, DecidableEq

/-- One mapping entry of `table_mapping_workflow.json`. -/
structure WorkflowMapping where
  old_table_id : Nat
  suggested_new_table_id : Nat
  confidence : ℚ
  alternatives : List AltEntry
deriving Repr, DecidableEq

/-- `TableMappingWorkflow.run`, per old table: score every target table
with embedding similarity (`sim`, the external model) plus a fixed `0.3`
bonus for case-insensitively equal names; sort descending; keep the top
5 as matches; emit the best as the suggestion with `matches.slice(1, 3)`
— at most two entries — as alternatives.  `none` when the target catalog
is empty (the source would crash reading `matches[0]`). -/
def workflowEntryFor (sim : TableInfoW → ℚ) (oldT : TableInfoW)
    (newTables : List TableInfoW) : Option WorkflowMapping :=
  let similarities := newTables.map (fun nt =>
    let s := sim nt
    let score := if strToLower oldT.name = strToLower nt.name then s + 0.3 else s
    SimRow.mk nt s score)
  let sorted := stableSortDescBy (fun r => r.score) similarities
  let matchesTop := sorted.take 5
  match matchesTop with
  | [] => none
  | topMatch :: restMatches =>
    some { old_table_id := oldT.id
           suggested_new_table_id := topMatch.table.id
           confidence := topMatch.score
           alternatives := (restMatches.take 2).map (fun m =>
             ⟨m.table.id, m.table.schema ++ "." ++ m.table.name, m.score⟩) }

/-! ## Concrete scenario environments used by witnesses and
counterexamples -/

/-- A structured query whose body references the given cards. -/
def mkQuery (deps : List Nat) : Json :=
  .obj [("type", .str "query"),
        ("query", .obj [("refs", .arr (deps.map (fun d => .str ("card__" ++ toString d))))])]

/-- A card with the given id and structured dependencies. -/
def mkCard (i : Nat) (deps : List Nat) : CardRec :=
  { id := i, name := "c" ++ toString i, description := none, display := .str "table",
    visualization_settings := .obj [], dataset_query := some (mkQuery deps),
    collection_id := none, collection_position := none }

/-- A benign environment: every rewrite succeeds with no unmatched
objects, creation hands out fresh ids `100, 101, …`, verification
succeeds immediately. -/
def baseEnv (cards : List CardRec) : Env :=
  { cards := cards
    fetchFails := fun _ => false
    migrateQuery := fun _ j => ⟨j, [], [], []⟩
    applyTransforms := id
    newDbId := 10
    metabaseBaseUrl := "mb"
    clientBaseUrl := "cb"
    createCardOk := fun _ n => some (100 + n)
    updateCardOk := fun _ _ => true
    queryCardErr := fun _ _ => none
    updateQueryOk := fun _ _ => true
    fixWithAI := fun _ _ _ _ => none
    sqlContext := ""
    enrichTable := id
    enrichField := id }

/-- The empty starting state. -/
def st0 : St := ⟨[], [], [], []⟩

/-- Acyclic diamond: card 1 depends on 2 and 3, which both depend on 4. -/
def diamondEnv : Env :=
  baseEnv [mkCard 1 [2, 3], mkCard 2 [4], mkCard 3 [4], mkCard 4 []]

/-- A two-cycle: card 7 references card 8 and vice versa. -/
def cycleEnv : Env :=
  baseEnv [mkCard 7 [8], mkCard 8 [7]]

/-- A native card whose verification always fails and whose oracle always
proposes the same repair: exercises repair-loop exhaustion. -/
def brokenVerifyEnv : Env :=
  { baseEnv [{ id := 5, name := "c5", description := none, display := .str "table",
               visualization_settings := .obj [],
               dataset_query := some (.obj [("type", .str "native"),
                 ("native", .obj [("query", .str "SELECT old")])]),
               collection_id := none, collection_position := none }] with
    queryCardErr := fun _ _ => some "boom"
    fixWithAI := fun _ _ _ _ => some "SELECT fixed" }

/-- An environment whose structured rewrite reports one unmatched table
and one unmatched field. -/
def unmatchedEnv : Env :=
  { baseEnv [mkCard 1 []] with
    migrateQuery := fun _ j => ⟨j, ["w1"], [⟨77, "Table 77", "public"⟩], [⟨88, "f88", "t", 7⟩]⟩ }

/-- Oracle for the translation cache: rate-limited on the first call,
successful afterwards. -/
def rateLimitedSqlEnv : SqlEnv :=
  ⟨fun n => if n = 0 then .error "429 Too Many Requests" else .ok "SELECT 1"⟩

/-- Oracle that succeeds immediately. -/
def okSqlEnv : SqlEnv :=
  ⟨fun _ => .ok "SELECT 2"⟩

/-- A reference cycle of length ≥ 2: pairwise-distinct card ids, none of
them mapped yet, each fetchable, and each one's extracted references
consisting of exactly the next id around the cycle. -/
def CycleHyps (env : Env) (m : List (Nat × Nat)) (cyc : List Nat) : Prop :=
  2 ≤ cyc.length ∧ cyc.Nodup ∧
  ∀ j < cyc.length,
    mapLookup m (cyc.getD j 0) = none ∧
    ∃ card, getCardEnv env (cyc.getD j 0) = some card ∧
      extractCardReferences (card.dataset_query.getD .null) =
        [cyc.getD ((j + 1) % cyc.length) 0]

/-! ## Lemmas about the stable descending sort -/

theorem mem_insertDescBy {key : α → ℚ} {x a : α} {l : List α} :
    x ∈ insertDescBy key a l ↔ x = a ∨ x ∈ l := by
  induction l with
  | nil => simp [insertDescBy]
  | cons y ys ih =>
    simp only [insertDescBy]
    split
    · simp [List.mem_cons]
    · simp only [List.mem_cons, ih]
      tauto

theorem mem_stableSortDescBy {key : α → ℚ} {x : α} {l : List α} :
    x ∈ stableSortDescBy key l ↔ x ∈ l := by
  induction l with
  | nil => simp [stableSortDescBy]
  | cons y ys ih => simp [stableSortDescBy, mem_insertDescBy, ih]

theorem length_insertDescBy (key : α → ℚ) (a : α) (l : List α) :
    (insertDescBy key a l).length = l.length + 1 := by
  induction l with
  | nil => simp [insertDescBy]
  | cons y ys ih =>
    simp only [insertDescBy]
    split <;> simp [ih]

theorem length_stableSortDescBy (key : α → ℚ) (l : List α) :
    (stableSortDescBy key l).length = l.length := by
  induction l with
  | nil => rfl
  | cons y ys ih => simp [stableSortDescBy, length_insertDescBy, ih]

theorem pairwise_insertDescBy {key : α → ℚ} {a : α} {l : List α}
    (h : l.Pairwise (fun x y => key y ≤ key x)) :
    (insertDescBy key a l).Pairwise (fun x y => key y ≤ key x) := by
  induction l with
  | nil => simp [insertDescBy]
  | cons y ys ih =>
    rw [List.pairwise_cons] at h
    simp only [insertDescBy]
    split
    · rename_i hlt
      refine List.pairwise_cons.2 ⟨?_, List.pairwise_cons.2 ⟨h.1, h.2⟩⟩
      intro z hz
      rcases List.mem_cons.1 hz with rfl | hz
      · exact le_of_lt hlt
      · exact le_trans (h.1 z hz) (le_of_lt hlt)
    · rename_i hge
      refine List.pairwise_cons.2 ⟨?_, ih h.2⟩
      intro z hz
      rcases mem_insertDescBy.1 hz with rfl | hz
      · exact le_of_not_lt hge
      · exact h.1 z hz

theorem pairwise_stableSortDescBy (key : α → ℚ) (l : List α) :
    (stableSortDescBy key l).Pairwise (fun x y => key y ≤ key x) := by
  induction l with
  | nil => simp [stableSortDescBy]
  | cons y ys ih => exact pairwise_insertDescBy ih

theorem head_max_stableSortDescBy {key : α → ℚ} {l : List α} {b : α} {rest : List α}
    (h : stableSortDescBy key l = b :: rest) :
    ∀ x ∈ l, key x ≤ key b := by
  intro x hx
  have hmem : x ∈ b :: rest := by
    rw [← h]; exact mem_stableSortDescBy.2 hx
  rcases List.mem_cons.1 hmem with rfl | hx'
  · exact le_refl _
  · have hp := pairwise_stableSortDescBy key l
    rw [h, List.pairwise_cons] at hp
    exact hp.1 x hx'


/-! ## Projection lemmas for the response constructors -/

@[simp] theorem failResp_status (c m) : (failResp c m).status = .failed := rfl
@[simp] theorem failResp_errorCode (c m) : (failResp c m).errorCode = some c := rfl
@[simp] theorem failResp_message (c m) : (failResp c m).message = some m := rfl
@[simp] theorem failResp_innermost (c m) : (failResp c m).innermost = failResp c m := rfl

@[simp] theorem unmatchedFailResp_status (c m uT uF dq mq) :
    (unmatchedFailResp c m uT uF dq mq).status = .failed := rfl
@[simp] theorem unmatchedFailResp_errorCode (c m uT uF dq mq) :
    (unmatchedFailResp c m uT uF dq mq).errorCode = some c := rfl
@[simp] theorem unmatchedFailResp_originalQuery (c m uT uF dq mq) :
    (unmatchedFailResp c m uT uF dq mq).originalQuery = some dq := rfl
@[simp] theorem unmatchedFailResp_migratedQuery (c m uT uF dq mq) :
    (unmatchedFailResp c m uT uF dq mq).migratedQuery = some mq := rfl
@[simp] theorem unmatchedFailResp_unmatchedTables (c m uT uF dq mq) :
    (unmatchedFailResp c m uT uF dq mq).unmatchedTables = uT := rfl
@[simp] theorem unmatchedFailResp_unmatchedFields (c m uT uF dq mq) :
    (unmatchedFailResp c m uT uF dq mq).unmatchedFields = uF := rfl

@[simp] theorem apiFailResp_status (dq mq) : (apiFailResp dq mq).status = .failed := rfl
@[simp] theorem apiFailResp_errorCode (dq mq) :
    (apiFailResp dq mq).errorCode = some .METABASE_API_ERROR := rfl
@[simp] theorem apiFailResp_originalQuery (dq mq) :
    (apiFailResp dq mq).originalQuery = some dq := rfl
@[simp] theorem apiFailResp_migratedQuery (dq mq) :
    (apiFailResp dq mq).migratedQuery = some mq := rfl

@[simp] theorem outerCatchResp_status (dq) : (outerCatchResp dq).status = .failed := rfl
@[simp] theorem outerCatchResp_errorCode (dq) :
    (outerCatchResp dq).errorCode = some .UNKNOWN_ERROR := rfl

@[simp] theorem okDryResp_status (dq mq ws isN) : (okDryResp dq mq ws isN).status = .ok := rfl
@[simp] theorem okDryResp_originalQuery (dq mq ws isN) :
    (okDryResp dq mq ws isN).originalQuery = some dq := rfl
@[simp] theorem okDryResp_migratedQuery (dq mq ws isN) :
    (okDryResp dq mq ws isN).migratedQuery = some mq := rfl
@[simp] theorem okDryResp_warnings (dq mq ws isN) :
    (okDryResp dq mq ws isN).warnings = some ws := rfl
@[simp] theorem okDryResp_autoFixApplied (dq mq ws isN) :
    (okDryResp dq mq ws isN).autoFixApplied = some false := rfl
@[simp] theorem okDryResp_nativeSqlStatus (dq mq ws isN) :
    (okDryResp dq mq ws isN).nativeSqlStatus = some .ok := rfl

@[simp] theorem okCommitResp_status (env fixedId dq mq ws isN) :
    (okCommitResp env fixedId dq mq ws isN).status = .ok := rfl
@[simp] theorem okCommitResp_newId (env fixedId dq mq ws isN) :
    (okCommitResp env fixedId dq mq ws isN).newId = some fixedId := rfl
@[simp] theorem okCommitResp_originalQuery (env fixedId dq mq ws isN) :
    (okCommitResp env fixedId dq mq ws isN).originalQuery = some dq := rfl
@[simp] theorem okCommitResp_migratedQuery (env fixedId dq mq ws isN) :
    (okCommitResp env fixedId dq mq ws isN).migratedQuery = some mq := rfl
@[simp] theorem okCommitResp_warnings (env fixedId dq mq ws isN) :
    (okCommitResp env fixedId dq mq ws isN).warnings = some ws := rfl
@[simp] theorem okCommitResp_autoFixApplied (env fixedId dq mq ws isN) :
    (okCommitResp env fixedId dq mq ws isN).autoFixApplied = some false := rfl
@[simp] theorem okCommitResp_nativeSqlStatus (env fixedId dq mq ws isN) :
    (okCommitResp env fixedId dq mq ws isN).nativeSqlStatus = some .ok := rfl

@[simp] theorem alreadyResp_status (env cardId nm newCardId oq deps) :
    (alreadyResp env cardId nm newCardId oq deps).status = .already_migrated := rfl
@[simp] theorem alreadyResp_newId (env cardId nm newCardId oq deps) :
    (alreadyResp env cardId nm newCardId oq deps).newId = some newCardId := rfl
@[simp] theorem alreadyResp_oldId (env cardId nm newCardId oq deps) :
    (alreadyResp env cardId nm newCardId oq deps).oldId = some cardId := rfl

@[simp] theorem depFailResp_status (depId child) :
    (depFailResp depId child).status = .failed := rfl
@[simp] theorem depFailResp_errorCode (depId child) :
    (depFailResp depId child).errorCode = some .DEPENDENCY_NOT_MIGRATED := rfl
@[simp] theorem depFailResp_detailsChild (depId child) :
    (depFailResp depId child).detailsChild = some child := rfl
@[simp] theorem depFailResp_innermost (depId child) :
    (depFailResp depId child).innermost = child.innermost := by
  cases child
  rfl

@[simp] theorem mergeResp_status (r cardId nm oq deps) :
    (mergeResp r cardId nm oq deps).status = r.status := by
  cases r; rfl
@[simp] theorem mergeResp_errorCode (r cardId nm oq deps) :
    (mergeResp r cardId nm oq deps).errorCode = r.errorCode := by
  cases r; rfl
@[simp] theorem mergeResp_newId (r cardId nm oq deps) :
    (mergeResp r cardId nm oq deps).newId = r.newId := by
  cases r; rfl
@[simp] theorem mergeResp_oldId (r cardId nm oq deps) :
    (mergeResp r cardId nm oq deps).oldId = some cardId := by
  cases r; rfl
@[simp] theorem mergeResp_originalQuery (r cardId nm oq deps) :
    (mergeResp r cardId nm oq deps).originalQuery = oq := by
  cases r; rfl
@[simp] theorem mergeResp_migratedQuery (r cardId nm oq deps) :
    (mergeResp r cardId nm oq deps).migratedQuery = r.migratedQuery := by
  cases r; rfl
@[simp] theorem mergeResp_warnings (r cardId nm oq deps) :
    (mergeResp r cardId nm oq deps).warnings = r.warnings := by
  cases r; rfl
@[simp] theorem mergeResp_autoFixApplied (r cardId nm oq deps) :
    (mergeResp r cardId nm oq deps).autoFixApplied = r.autoFixApplied := by
  cases r; rfl
@[simp] theorem mergeResp_nativeSqlStatus (r cardId nm oq deps) :
    (mergeResp r cardId nm oq deps).nativeSqlStatus = r.nativeSqlStatus := by
  cases r; rfl
@[simp] theorem mergeResp_unmatchedTables (r cardId nm oq deps) :
    (mergeResp r cardId nm oq deps).unmatchedTables = r.unmatchedTables := by
  cases r; rfl
@[simp] theorem mergeResp_unmatchedFields (r cardId nm oq deps) :
    (mergeResp r cardId nm oq deps).unmatchedFields = r.unmatchedFields := by
  cases r; rfl

/-! ## Helper lemmas for the heuristic scoring claims -/

theorem heuristicEntriesFor_mem {oN oD : String} {f : FieldMeta} {c : ScoredCand}
    (hc : c ∈ heuristicEntriesFor oN oD f) :
    c.f = f ∧
    ((c.score = 1 ∧ c.reason = "exact name match" ∧ strToLower f.name = strToLower oN) ∨
     (c.score = 0.95 ∧ c.reason = "exact display_name match" ∧
       strToLower (f.display_name.getD "") ≠ "" ∧
       strToLower (f.display_name.getD "") = strToLower oD) ∨
     (c.score = 0.92 ∧ c.reason = "normalized name match" ∧
       normName f.name ≠ "" ∧ normName f.name = normName oN) ∨
     (c.score = 0.75 ∧ c.reason = "partial name overlap" ∧
       (jsIncludes (strToLower f.name) (strToLower oN) ∨
        jsIncludes (strToLower oN) (strToLower f.name)))) := by
  simp only [heuristicEntriesFor] at hc
  split at hc
  · rename_i hname
    simp only [List.mem_singleton] at hc
    subst hc
    exact ⟨rfl, Or.inl ⟨rfl, rfl, hname⟩⟩
  · rename_i hname
    simp only [List.mem_append] at hc
    rcases hc with (hc | hc) | hc
    · split at hc
      · rename_i hd
        simp only [List.mem_singleton] at hc
        subst hc
        exact ⟨rfl, Or.inr (Or.inl ⟨rfl, rfl, hd.1, hd.2⟩)⟩
      · simp at hc
    · split at hc
      · rename_i hn
        simp only [List.mem_singleton] at hc
        subst hc
        exact ⟨rfl, Or.inr (Or.inr (Or.inl ⟨rfl, rfl, hn.1, hn.2⟩))⟩
      · simp at hc
    · split at hc
      · rename_i hi
        simp only [List.mem_singleton] at hc
        subst hc
        exact ⟨rfl, Or.inr (Or.inr (Or.inr ⟨rfl, rfl, hi⟩))⟩
      · simp at hc

theorem pickBest_spec {oN oD : String} {newFields : List FieldMeta}
    {id : Nat} {s : ℚ} {r : String}
    (h : pickBestFieldHeuristic oN oD newFields = some (id, s, r)) :
    (∃ c ∈ newFields.flatMap (heuristicEntriesFor oN oD),
        c.f.id = id ∧ c.score = s ∧ c.reason = r) ∧
    ∀ c ∈ newFields.flatMap (heuristicEntriesFor oN oD), c.score ≤ s := by
  simp only [pickBestFieldHeuristic] at h
  match hsort : stableSortDescBy (fun c => c.score)
      (newFields.flatMap (heuristicEntriesFor oN oD)) with
  | [] => rw [hsort] at h; exact absurd h (by simp)
  | best :: rest =>
    rw [hsort] at h
    simp only [Option.some.injEq, Prod.mk.injEq] at h
    obtain ⟨h1, h2, h3⟩ := h
    constructor
    · refine ⟨best, ?_, h1, h2, h3⟩
      have : best ∈ best :: rest := List.mem_cons_self _ _
      rw [← hsort] at this
      exact mem_stableSortDescBy.1 this
    · intro c hcmem
      have := head_max_stableSortDescBy hsort c hcmem
      rw [← h2]
      exact this

theorem workflowEntryFor_alternatives {sim : TableInfoW → ℚ} {oldT : TableInfoW}
    {newTables : List TableInfoW} {w : WorkflowMapping}
    (h : workflowEntryFor sim oldT newTables = some w) :
    w.alternatives.length = min 2 (newTables.length - 1) := by
  simp only [workflowEntryFor] at h
  set sorted := stableSortDescBy (fun r => r.score)
    (newTables.map (fun nt =>
      let s := sim nt
      let score := if strToLower oldT.name = strToLower nt.name then s + 0.3 else s
      SimRow.mk nt s score)) with hs
  have hlen : sorted.length = newTables.length := by
    rw [hs, length_stableSortDescBy, List.length_map]
  match htake : sorted.take 5 with
  | [] => rw [htake] at h; exact absurd h (by simp)
  | topMatch :: restMatches =>
    rw [htake] at h
    simp only [Option.some.injEq] at h
    have h5 : (sorted.take 5).length = min 5 sorted.length := List.length_take _ _
    rw [htake] at h5
    simp only [List.length_cons] at h5
    have halt : w.alternatives.length = min 2 restMatches.length := by
      rw [← h]
      simp [List.length_take]
    rw [halt]
    omega

/-! ## Claim theorems -/

/-- C8 (counterexample): the claim says a normalized name match is applied
only when exactly one candidate qualifies, for both tables and fields.
For fields the code uses `Array.prototype.find`: with old field `a b` and
two candidates `a_b` and `ab` that BOTH normalize to `ab`, the matcher
still picks the first candidate instead of reporting no match; and for
tables the loose match is case-sensitive on the exact name, so the single
case-normalized candidate `orders` is NOT matched for `Orders`. -/
theorem C8_counterexample :
    fieldStageMatch "a b" none [⟨5, "a_b", none⟩, ⟨6, "ab", none⟩] = some ⟨5, "a_b", none⟩
    ∧ normName "a_b" = normName "a b" ∧ normName "ab" = normName "a b"
    ∧ tableFallbackMatch ⟨1, "public", "Orders"⟩ [⟨10, "public", "orders"⟩] = none := by
  decide

/-- C8 (amended): in `buildMaps`, the FIELD fallback applies a
case/whitespace/underscore-normalized match that picks the first
qualifying candidate in catalog order (no uniqueness requirement), while
the TABLE fallback applies an exact-name (case-sensitive, not normalized)
loose match only when exactly one candidate carries that name. -/
theorem C8_amended_matching :
    (∀ (oldName : String) (oldDisplay : Option String) (newFields : List FieldMeta),
      lastByLowerName newFields (strToLower oldName) = none →
      (strToLower (oldDisplay.getD "") = "" ∨
        lastByLowerDisplay newFields (strToLower (oldDisplay.getD "")) = none) →
      fieldStageMatch oldName oldDisplay newFields =
        newFields.find? (fun f => normName f.name = normName (strToLower oldName)))
    ∧ (∀ (oldTable : TableMeta) (newTables : List TableMeta),
      newTables.find? (fun t => t.schema = oldTable.schema ∧ t.name = oldTable.name) = none →
      (newTables.filter (fun t => t.name = oldTable.name)).length ≠ 1 →
      tableFallbackMatch oldTable newTables = none) := by
  constructor
  · intro oldName oldDisplay newFields h1 h2
    simp only [fieldStageMatch, h1]
    rcases h2 with h2 | h2
    · simp [h2]
    · simp [h2]
  · intro oldTable newTables h1 h2
    simp only [tableFallbackMatch, h1]
    simp [h2]

/-- C8 witness: the amended theorem applied at concrete inputs. -/
theorem C8_amended_matching_witness :
    fieldStageMatch "x y" none [⟨5, "x_y", none⟩, ⟨6, "xy", none⟩] =
      List.find? (fun f => normName f.name = normName (strToLower "x y"))
        [⟨5, "x_y", none⟩, ⟨6, "xy", none⟩]
    ∧ tableFallbackMatch ⟨1, "public", "Orders"⟩ [⟨10, "a", "orders"⟩, ⟨11, "b", "orders"⟩] =
      none :=
  ⟨C8_amended_matching.1 "x y" none [⟨5, "x_y", none⟩, ⟨6, "xy", none⟩]
      (by decide) (Or.inl (by decide)),
   C8_amended_matching.2 ⟨1, "public", "Orders"⟩ [⟨10, "a", "orders"⟩, ⟨11, "b", "orders"⟩]
      (by decide) (by decide)⟩

/-- C9 (counterexample): the claim says the resolver always retains the
top-3 as alternatives.  The bulk-suggestion workflow stores
`matches.slice(1, 3)`: with six candidate tables the emitted mapping
carries exactly TWO alternatives, not three. -/
theorem C9_counterexample :
    ((workflowEntryFor (fun t => (t.id : ℚ)) ⟨1, "public", "orders"⟩
      [⟨10, "a", "t10"⟩, ⟨20, "b", "t20"⟩, ⟨30, "c", "t30"⟩, ⟨40, "d", "t40"⟩,
       ⟨50, "e", "t50"⟩, ⟨60, "f", "t60"⟩]).map (fun w => w.alternatives.length)) = some 2 := by
  decide

/-- C9 (amended): `pickBestFieldHeuristic` scores exact name 1.0, exact
display-name 0.95, normalized-name 0.92 and substring overlap 0.75, each
entry tagged with its rule; the returned candidate is a maximal-score
entry of the score-descending ranking; and the bulk-suggestion workflow
retains the best candidate as the suggestion plus the candidates ranked
2–3 — at most TWO — as alternatives. -/
theorem C9_amended_scoring :
    (∀ (oN oD : String) (f : FieldMeta) (c : ScoredCand),
      c ∈ heuristicEntriesFor oN oD f →
      c.score = 1 ∨ c.score = 0.95 ∨ c.score = 0.92 ∨ c.score = 0.75)
    ∧ (∀ (oN oD : String) (newFields : List FieldMeta) (id : Nat) (s : ℚ) (r : String),
      pickBestFieldHeuristic oN oD newFields = some (id, s, r) →
      (∃ c ∈ newFields.flatMap (heuristicEntriesFor oN oD),
          c.f.id = id ∧ c.score = s ∧ c.reason = r) ∧
      ∀ c ∈ newFields.flatMap (heuristicEntriesFor oN oD), c.score ≤ s)
    ∧ (∀ (sim : TableInfoW → ℚ) (oldT : TableInfoW) (newTables : List TableInfoW)
        (w : WorkflowMapping),
      workflowEntryFor sim oldT newTables = some w →
      w.alternatives.length = min 2 (newTables.length - 1)) := by
  refine ⟨?_, ?_, ?_⟩
  · intro oN oD f c hc
    rcases (heuristicEntriesFor_mem hc).2 with h | h | h | h
    · exact Or.inl h.1
    · exact Or.inr (Or.inl h.1)
    · exact Or.inr (Or.inr (Or.inl h.1))
    · exact Or.inr (Or.inr (Or.inr h.1))
  · intro oN oD newFields id s r h
    exact pickBest_spec h
  · intro sim oldT newTables w h
    exact workflowEntryFor_alternatives h

/-- C9 witness: the amended theorem applied at concrete inputs. -/
theorem C9_amended_scoring_witness :
    ((⟨⟨3, "cust_id", none⟩, 1, "exact name match"⟩ : ScoredCand).score = 1 ∨
      (⟨⟨3, "cust_id", none⟩, 1, "exact name match"⟩ : ScoredCand).score = 0.95 ∨
      (⟨⟨3, "cust_id", none⟩, 1, "exact name match"⟩ : ScoredCand).score = 0.92 ∨
      (⟨⟨3, "cust_id", none⟩, 1, "exact name match"⟩ : ScoredCand).score = 0.75)
    ∧ ((∃ c ∈ ([⟨3, "cust_id", none⟩] : List FieldMeta).flatMap
          (heuristicEntriesFor "cust_id" "Cust"),
          c.f.id = 3 ∧ c.score = 1 ∧ c.reason = "exact name match") ∧
        ∀ c ∈ ([⟨3, "cust_id", none⟩] : List FieldMeta).flatMap
          (heuristicEntriesFor "cust_id" "Cust"), c.score ≤ 1)
    ∧ (⟨1, 10, 10, []⟩ : WorkflowMapping).alternatives.length =
        min 2 (([⟨10, "a", "t10"⟩] : List TableInfoW).length - 1) :=
  ⟨C9_amended_scoring.1 "cust_id" "Cust" ⟨3, "cust_id", none⟩ _ (by decide),
   C9_amended_scoring.2.1 "cust_id" "Cust" [⟨3, "cust_id", none⟩] 3 1 "exact name match"
     (by decide),
   C9_amended_scoring.2.2 (fun t => (10 : ℚ)) ⟨1, "public", "orders"⟩ [⟨10, "a", "t10"⟩]
     ⟨1, 10, 10, []⟩ (by decide)⟩

/-- C10: the shared `visited` set is only added to, never pruned when a
branch completes, so in dry-run mode (where no mapping entries are
written) the acyclic diamond 1 → {2, 3} → 4 is misreported: migrating
card 1 fails with a dependency error whose innermost detail is the
circular-dependency guard response, even though the dependency graph
(shown explicitly acyclic by the extracted reference lists) has no cycle.
The final visited set `[1, 2, 4, 3]` retains card 4 from the completed
branch through 2. -/
theorem C10_diamond_false_cycle :
    extractCardReferences (mkQuery [2, 3]) = [2, 3]
    ∧ extractCardReferences (mkQuery [4]) = [4]
    ∧ extractCardReferences (mkQuery ([] : List Nat)) = []
    ∧ ((migrateTop diamondEnv 10 1 true st0).map
        (fun r => (r.1.status, r.1.errorCode, r.1.innermost.errorCode,
                   r.1.innermost.message))) =
      some (.failed, some .DEPENDENCY_NOT_MIGRATED, some .UNKNOWN_ERROR,
        some "Circular dependency detected")
    ∧ ((migrateTop diamondEnv 10 1 true st0).map (fun r => r.2.1)) = some [1, 2, 4, 3] := by
  decide

/-- C1 (counterexample): the claim says a cycle yields a failed result
whose error kind is `CircularDependency`.  `MigrationErrorCode` has no
such member: on the two-cycle 7 ↔ 8 the top-level result carries
`DEPENDENCY_NOT_MIGRATED`, and the innermost guard response carries
`UNKNOWN_ERROR` with only the message text mentioning the cycle. -/
theorem C1_counterexample :
    ((migrateTop cycleEnv 10 7 false st0).map
      (fun r => (r.1.status, r.1.errorCode, r.1.innermost.errorCode,
                 r.1.innermost.message))) =
    some (.failed, some .DEPENDENCY_NOT_MIGRATED, some .UNKNOWN_ERROR,
      some "Circular dependency detected") := by
  decide


/-! ## Helper lemmas for the translation cache -/

theorem cacheLookup_cachePut (c : List (String × String)) (k v : String) :
    cacheLookup (cachePut c k v) k = some v := by
  induction c with
  | nil => simp [cachePut, cacheLookup]
  | cons p rest ih =>
    by_cases hp : p.1 = k
    · simp [cachePut, cacheLookup, hp]
    · simp only [cachePut, cacheLookup] at *
      simp only [List.find?_cons, hp]
      by_cases hrest : (rest.find? (fun q => q.1 = k)).isSome
      · simp [hp, hrest] at *
        simpa [hp, hrest] using ih
      · simp [hp, hrest] at *
        simpa [hp, hrest] using ih

theorem translateGoAux_ok_cache (env : SqlEnv) (key : String) (mr : Nat) :
    ∀ (fuel retries : Nat) (st : TransSt) (t : String) (st1 : TransSt),
    translateGoAux env key mr fuel retries st = (.ok t, st1) →
    st1.cache = cachePut st.cache key t := by
  intro fuel
  induction fuel with
  | zero =>
    intro retries st t st1 h
    rw [translateGoAux] at h
    cases horacle : env.oracle st.oracleCalls with
    | ok raw =>
      simp only [horacle] at h
      obtain ⟨ht, hst⟩ := Prod.mk.inj h
      obtain rfl := Except.ok.inj ht
      subst hst
      rfl
    | error msg =>
      simp only [horacle] at h
      split at h
      · exact absurd (Prod.mk.inj h).1 (by simp)
      · exact absurd (Prod.mk.inj h).1 (by simp)
  | succ n ih =>
    intro retries st t st1 h
    rw [translateGoAux] at h
    cases horacle : env.oracle st.oracleCalls with
    | ok raw =>
      simp only [horacle] at h
      obtain ⟨ht, hst⟩ := Prod.mk.inj h
      obtain rfl := Except.ok.inj ht
      subst hst
      rfl
    | error msg =>
      simp only [horacle] at h
      split at h
      · exact ih (retries + 1) { st with oracleCalls := st.oracleCalls + 1 } t st1 h
      · exact absurd (Prod.mk.inj h).1 (by simp)

/-- C7 (counterexample): the claim says two identical invocations call
the oracle at most once.  On a transient rate limit the retry loop alone
calls it twice within the FIRST invocation: with an oracle that throws
`429 Too Many Requests` once and then succeeds, a single `translateSql`
call records two oracle invocations and still returns the translation. -/
theorem C7_counterexample :
    (translateSql rateLimitedSqlEnv "SELECT a" "ctx" ⟨[], 0⟩).2.oracleCalls = 2 ∧
    (translateSql rateLimitedSqlEnv "SELECT a" "ctx" ⟨[], 0⟩).1.toOption = some "SELECT 1" := by
  decide

/-- C7 (amended): when a `translateSql` call succeeds with a NON-EMPTY
translation, the result is written through to the cache under the stable
hash of `(text, context)`, and a second identical call returns that cached
value with no further oracle invocation (its state, including the oracle
call counter, is unchanged).  A rate-limited first call may invoke the
oracle up to 4 times, and an empty cached translation is falsy and
re-triggers the oracle. -/
theorem C7_amended_cache (env : SqlEnv) (sql ctx : String) (st : TransSt) (t : String)
    (st1 : TransSt)
    (h : translateSql env sql ctx st = (.ok t, st1)) (ht : t ≠ "") :
    cacheLookup st1.cache (generateCacheKey sql ctx) = some t ∧
    translateSql env sql ctx st1 = (.ok t, st1) := by
  have hgo : ∀ (stx : TransSt), translateGo env (generateCacheKey sql ctx) 3 0 stx = (.ok t, st1) →
      cacheLookup st1.cache (generateCacheKey sql ctx) = some t ∧
      translateSql env sql ctx st1 = (.ok t, st1) := by
    intro stx hg
    have hc := translateGoAux_ok_cache env (generateCacheKey sql ctx) 3 3 0 stx t st1 hg
    have hl : cacheLookup st1.cache (generateCacheKey sql ctx) = some t := by
      rw [hc]; exact cacheLookup_cachePut _ _ _
    refine ⟨hl, ?_⟩
    simp only [translateSql, hl]
    simp [ht]
  simp only [translateSql] at h
  cases hlook : cacheLookup st.cache (generateCacheKey sql ctx) with
  | some cached =>
    rw [hlook] at h
    dsimp only at h
    by_cases hc : cached = ""
    · subst hc
      rw [if_neg (by simp)] at h
      exact hgo st h
    · rw [if_pos hc] at h
      obtain ⟨ht2, hst⟩ := Prod.mk.inj h
      obtain rfl := Except.ok.inj ht2
      subst hst
      constructor
      · rw [hlook]
      · simp only [translateSql, hlook]
        simp [hc]
  | none =>
    rw [hlook] at h
    dsimp only at h
    exact hgo st h

/-- C7 witness: the amended theorem at a concrete immediately-successful
oracle. -/
theorem C7_amended_cache_witness :
    cacheLookup (TransSt.mk [("SC", "SELECT 2")] 1).cache (generateCacheKey "S" "C") =
      some "SELECT 2" ∧
    translateSql okSqlEnv "S" "C" ⟨[("SC", "SELECT 2")], 1⟩ =
      (.ok "SELECT 2", ⟨[("SC", "SELECT 2")], 1⟩) :=
  C7_amended_cache okSqlEnv "S" "C" ⟨[], 0⟩ "SELECT 2" ⟨[("SC", "SELECT 2")], 1⟩
    (by rfl) (by decide)


/-! ## Helper lemmas for `testAndFixCard` and `migrateCard` -/

theorem rewriteStage_error_status (env : Env) (st : St) (dq : Json) (r : MigrationResponse)
    (h : rewriteStage env st dq = .error r) : r.status = .failed := by
  unfold rewriteStage at h
  split at h
  · simp at h
  · dsimp only at h
    split at h
    · obtain rfl := Except.error.inj h
      simp
    · simp at h
  · obtain rfl := Except.error.inj h
    simp

theorem rewriteStage_query (env : Env) (st : St) (dq : Json)
    (hty : dq.get "type" = some (.str "query")) :
    rewriteStage env st dq = .ok ⟨(env.migrateQuery st.mbqlMap dq).query,
      (env.migrateQuery st.mbqlMap dq).warnings,
      (env.migrateQuery st.mbqlMap dq).unmatchedTables,
      (env.migrateQuery st.mbqlMap dq).unmatchedFields, false⟩ := by
  unfold rewriteStage
  rw [hty]
  rfl

theorem enrichTables_eq_nil (env : Env) (l : List UnmatchedTable) :
    enrichTables env l = [] ↔ l = [] := by
  simp [enrichTables]

theorem enrichFields_eq_nil (env : Env) (l : List UnmatchedField) :
    enrichFields env l = [] ↔ l = [] := by
  simp [enrichFields]

theorem testAndFix_nonnative (env : Env) (c : Nat) (oq : Json) (st : St)
    (h : isNativeWithQuery oq = false) :
    testAndFixCard env c oq st = (some c, { st with queries := st.queries ++ [c] }) := by
  unfold testAndFixCard testAndFixGo testAndFixGoAux
  cases env.queryCardErr c 1 <;> simp [h]

theorem testAndFixGoAux_bounds (env : Env) (c : Nat) (oq : Json) (mr : Nat) :
    ∀ (fuel attempt : Nat) (st : St) (r : Option Nat) (st' : St),
    mr ≤ attempt + fuel →
    testAndFixGoAux env c oq mr fuel attempt st = (r, st') →
    st'.mapping = st.mapping ∧ st'.mbqlMap = st.mbqlMap ∧
    st'.queries.length ≤ st.queries.length + fuel + 1 ∧
    st.queries.length ≤ st'.queries.length ∧
    st'.ops.length ≤ st.ops.length + fuel ∧
    (attempt ≤ mr → st.queries.length + 1 ≤ st'.queries.length) := by
  intro fuel
  induction fuel with
  | zero =>
    intro attempt st r st' hle h
    rw [testAndFixGoAux] at h
    dsimp only at h
    repeat' split at h
    all_goals
      obtain ⟨rfl, rfl⟩ := Prod.mk.inj h
    all_goals
      refine ⟨rfl, rfl, ?_, ?_, ?_, ?_⟩ <;>
        first | omega | (simp <;> omega) | (intro hx; simp <;> omega)
  | succ n ih =>
    intro attempt st r st' hle h
    rw [testAndFixGoAux] at h
    dsimp only at h
    repeat' split at h
    all_goals
      first
      | (obtain ⟨hm, hmb, hq1, hq2, ho, hq3⟩ := ih (attempt + 1) _ r st' (by omega) h
         simp only [List.length_append, List.length_cons, List.length_nil] at hq1 hq2 ho hq3 ⊢
         refine ⟨hm, hmb, by omega, by omega, by omega, by omega⟩)
      | (obtain ⟨rfl, rfl⟩ := Prod.mk.inj h
         refine ⟨rfl, rfl, ?_, ?_, ?_, ?_⟩ <;>
           first | omega | (simp <;> omega) | (intro hx; simp <;> omega))

theorem migrateCard_spec (env : Env) (card : CardRec) (dryRun : Bool)
    (coll : Option Int) (force : Bool) (st : St) :
    ((migrateCard env card dryRun coll force st).1.status ≠ .ok →
      ((migrateCard env card dryRun coll force st).2).mapping = st.mapping) ∧
    ((migrateCard env card dryRun coll force st).1.status = .ok → dryRun = true →
      (migrateCard env card dryRun coll force st).2 = st) ∧
    ((migrateCard env card dryRun coll force st).1.status = .ok → dryRun = false →
      ∃ fid, (migrateCard env card dryRun coll force st).1.newId = some fid ∧
        ((migrateCard env card dryRun coll force st).2).mapping =
          mapSet st.mapping card.id fid) ∧
    ((migrateCard env card dryRun coll force st).1.status = .ok →
      (migrateCard env card dryRun coll force st).1.autoFixApplied = some false ∧
      (migrateCard env card dryRun coll force st).1.nativeSqlStatus = some .ok) ∧
    (migrateCard env card dryRun coll force st).1.status ≠ .already_migrated := by
  unfold migrateCard
  cases hdq : card.dataset_query with
  | none => simp
  | some dq =>
    split
    · simp
    · rename_i dqv heqv
      obtain rfl := Option.some.inj heqv
      split
      · simp
      cases hrw : rewriteStage env st dq with
      | error r =>
        dsimp only
        have hstat := rewriteStage_error_status env st dq r hrw
        simp [hstat]
      | ok rw =>
        dsimp only
        by_cases henr : rw.uT ≠ [] ∨ rw.uF ≠ []
        · simp only [if_pos henr]
          split
          · simp
          · rename_i hTe
            split
            · simp
            · rename_i hFe
              exfalso
              rcases henr with hT | hF
              · exact hTe (by simpa [enrichTables_eq_nil] using hT)
              · exact hFe (by simpa [enrichFields_eq_nil] using hF)
        · simp only [if_neg henr]
          push_neg at henr
          obtain ⟨hT, hF⟩ := henr
          rw [if_neg (by simp [hT]), if_neg (by simp [hF])]
          split
          · rename_i hdry
            simp [hdry]
          · rename_i hdry
            split
            · simp
            · rename_i createdId st1 hcreated
              have hst1 : st1.mapping = st.mapping := by
                repeat' split at hcreated
                all_goals
                  first
                  | (obtain ⟨rfl, rfl⟩ := Prod.mk.inj (Option.some.inj hcreated); rfl)
                  | simp at hcreated
              split
              · rename_i st2 hfix
                have hb := testAndFixGoAux_bounds env createdId rw.mq 3 2 1 st1 none st2
                  (by omega) hfix
                simp [hb.1, hst1]
              · rename_i fid st2 hfix
                have hb := testAndFixGoAux_bounds env createdId rw.mq 3 2 1 st1 (some fid) st2
                  (by omega) hfix
                have hdf : dryRun = false := by
                  cases dryRun
                  · rfl
                  · exact absurd rfl hdry
                have h2 : st2.mapping = st.mapping := by rw [hb.1, hst1]
                simp [hdf, h2]

/-- C5: on the structured path, a non-empty unmatched-table list yields
`failed(MISSING_MAPPING_TABLE)` and an empty unmatched-table list with a
non-empty unmatched-field list yields `failed(MISSING_MAPPING_FIELD)` —
for every value of `dryRun` (the unmatched checks precede the dry-run
exit) — and the failed response carries both the original query and the
partially migrated query; no state is touched. -/
theorem C5_unmatched_hard_failure (env : Env) (card : CardRec) (dryRun : Bool)
    (coll : Option Int) (force : Bool) (st : St) (dq : Json)
    (hdq : card.dataset_query = some dq) (htr : dq.truthy = true)
    (hty : dq.get "type" = some (.str "query")) :
    ((env.migrateQuery st.mbqlMap dq).unmatchedTables ≠ [] →
      migrateCard env card dryRun coll force st =
        (unmatchedFailResp .MISSING_MAPPING_TABLE "Unmatched tables found"
          (enrichTables env (env.migrateQuery st.mbqlMap dq).unmatchedTables)
          (enrichFields env (env.migrateQuery st.mbqlMap dq).unmatchedFields)
          dq (env.migrateQuery st.mbqlMap dq).query, st)) ∧
    ((env.migrateQuery st.mbqlMap dq).unmatchedTables = [] →
      (env.migrateQuery st.mbqlMap dq).unmatchedFields ≠ [] →
      migrateCard env card dryRun coll force st =
        (unmatchedFailResp .MISSING_MAPPING_FIELD "Unmatched fields found"
          [] (enrichFields env (env.migrateQuery st.mbqlMap dq).unmatchedFields)
          dq (env.migrateQuery st.mbqlMap dq).query, st)) := by
  constructor
  · intro hT
    unfold migrateCard
    rw [hdq]
    dsimp only
    rw [if_neg (by simp [htr]), rewriteStage_query env st dq hty]
    dsimp only
    rw [if_pos (Or.inl hT)]
    rw [if_pos (by simpa [enrichTables_eq_nil] using hT)]
    rw [if_pos (Or.inl hT)]
  · intro hT hF
    unfold migrateCard
    rw [hdq]
    dsimp only
    rw [if_neg (by simp [htr]), rewriteStage_query env st dq hty]
    dsimp only
    rw [hT]
    simp [enrichTables, hF]
    intro hco
    exact absurd ((enrichFields_eq_nil env _).1 hco) hF

/-- C5 witness: a rewrite reporting one unmatched table fails with
`MISSING_MAPPING_TABLE`, in dry-run mode, carrying both query bodies. -/
theorem C5_unmatched_hard_failure_witness :
    migrateCard unmatchedEnv (mkCard 1 []) true none false st0 =
      (unmatchedFailResp .MISSING_MAPPING_TABLE "Unmatched tables found"
        (enrichTables unmatchedEnv
          (unmatchedEnv.migrateQuery st0.mbqlMap (mkQuery [])).unmatchedTables)
        (enrichFields unmatchedEnv
          (unmatchedEnv.migrateQuery st0.mbqlMap (mkQuery [])).unmatchedFields)
        (mkQuery []) (unmatchedEnv.migrateQuery st0.mbqlMap (mkQuery [])).query, st0) :=
  (C5_unmatched_hard_failure unmatchedEnv (mkCard 1 []) true none false st0 (mkQuery [])
    rfl (by decide) (by rfl)).1 (by decide)

/-- C6: a dry-run `migrateCard` never touches the threaded state — no
remote creation, update, execution, or mapping write — and when the
rewrite succeeds with no unmatched objects it returns the dry-run success
response carrying the original query, the migrated query and the
warnings. -/
theorem C6_dry_run_no_remote (env : Env) (card : CardRec) (coll : Option Int)
    (force : Bool) (st : St) :
    (migrateCard env card true coll force st).2 = st ∧
    (∀ dq rw, card.dataset_query = some dq → dq.truthy = true →
      rewriteStage env st dq = .ok rw → rw.uT = [] → rw.uF = [] →
      (migrateCard env card true coll force st).1 = okDryResp dq rw.mq rw.ws rw.isNative) := by
  constructor
  · unfold migrateCard
    cases hdq : card.dataset_query with
    | none => simp
    | some dq =>
      split
      · simp
      · rename_i dqv heqv
        obtain rfl := Option.some.inj heqv
        split
        · simp
        cases hrw : rewriteStage env st dq with
        | error r => dsimp only
        | ok rw =>
          dsimp only
          split <;> try simp
          all_goals try (split <;> try simp)
          all_goals try (split <;> try simp)
  · intro dq rw hdq htr hrw hT hF
    unfold migrateCard
    rw [hdq]
    dsimp only
    rw [if_neg (by simp [htr]), hrw]
    dsimp only
    rw [hT]
    simp [hF, enrichTables, enrichFields]

/-- C6 witness: a successful dry run on a concrete card leaves the state
untouched and returns the dry-run response with the before/after pair. -/
theorem C6_dry_run_no_remote_witness :
    (migrateCard diamondEnv (mkCard 4 []) true none false st0).2 = st0 ∧
    (migrateCard diamondEnv (mkCard 4 []) true none false st0).1 =
      okDryResp (mkQuery []) (mkQuery []) [] false :=
  ⟨(C6_dry_run_no_remote diamondEnv (mkCard 4 []) none false st0).1,
   (C6_dry_run_no_remote diamondEnv (mkCard 4 []) none false st0).2
     (mkQuery []) ⟨mkQuery [], [], [], [], false⟩ rfl (by decide) (by rfl) rfl rfl⟩

/-- C4 (counterexample): the claim says that after exhausting repair
attempts the result is success "flagged as unverified".  With a native
card whose execution always fails (`queryCardErr` constantly errors) and
an oracle that keeps proposing fixes, the repair loop runs its three
attempts (three executions logged) and the migration still returns plain
`ok`: `autoFixApplied` stays `false`, `nativeSqlStatus` stays `ok`,
`warnings` is empty — nothing flags the card as unverified. -/
theorem C4_counterexample :
    brokenVerifyEnv.queryCardErr = (fun _ _ => some "boom") ∧
    ((migrateTop brokenVerifyEnv 5 5 false st0).map (fun r =>
      (r.1.status, r.1.autoFixApplied, r.1.nativeSqlStatus, r.1.warnings))) =
      some (.ok, some false, some .ok, some []) ∧
    ((migrateTop brokenVerifyEnv 5 5 false st0).map (fun r => r.2.2.queries)) =
      some [100, 100, 100] := by
  exact ⟨rfl, by decide, by decide⟩

/-- C4 (amended): after creation the card is executed at least once and
at most 3 times (`maxRetries = 3`), with at most 2 repair updates and no
mapping write inside the loop; the repair loop runs only when the query
kind is raw-text (for a non-native query the loop exits right after the
first failed execution, with no oracle call and no update); and a
successful migration carries NO unverified flag: every `ok` response has
`autoFixApplied = false` and `nativeSqlStatus = 'ok'`. -/
theorem C4_amended_repair_loop :
    (∀ (env : Env) (c : Nat) (oq : Json) (st : St),
      isNativeWithQuery oq = false →
      testAndFixCard env c oq st = (some c, { st with queries := st.queries ++ [c] })) ∧
    (∀ (env : Env) (c : Nat) (oq : Json) (st : St) (r : Option Nat) (st' : St),
      testAndFixCard env c oq st = (r, st') →
      st.queries.length + 1 ≤ st'.queries.length ∧
      st'.queries.length ≤ st.queries.length + 3 ∧
      st'.ops.length ≤ st.ops.length + 2 ∧
      st'.mapping = st.mapping) ∧
    (∀ (env : Env) (card : CardRec) (dryRun : Bool) (coll : Option Int) (force : Bool)
      (st : St),
      (migrateCard env card dryRun coll force st).1.status = .ok →
      (migrateCard env card dryRun coll force st).1.autoFixApplied = some false ∧
      (migrateCard env card dryRun coll force st).1.nativeSqlStatus = some .ok) := by
  refine ⟨?_, ?_, ?_⟩
  · intro env c oq st h
    exact testAndFix_nonnative env c oq st h
  · intro env c oq st r st' h
    have hb := testAndFixGoAux_bounds env c oq 3 2 1 st r st' (by omega) h
    exact ⟨hb.2.2.2.2.2 (by omega), by omega, by omega, hb.1⟩
  · intro env card dryRun coll force st h
    exact (migrateCard_spec env card dryRun coll force st).2.2.2.1 h

/-- C4 witness: the amended theorem at concrete inputs (a non-native
query skips the repair loop; the always-failing verification run obeys
the bounds; the committed diamond leaf card returns `ok` with the flags). -/
theorem C4_amended_repair_loop_witness :
    testAndFixCard diamondEnv 1 (Json.obj []) st0 =
      (some 1, { st0 with queries := st0.queries ++ [1] }) ∧
    (st0.queries.length + 1 ≤ 1 ∧ 1 ≤ st0.queries.length + 3 ∧
      1 ≤ st0.ops.length + 2 ∧ st0.mapping = st0.mapping) ∧
    ((migrateCard diamondEnv (mkCard 4 []) false none false st0).1.autoFixApplied =
        some false ∧
      (migrateCard diamondEnv (mkCard 4 []) false none false st0).1.nativeSqlStatus =
        some .ok) := by
  refine ⟨C4_amended_repair_loop.1 diamondEnv 1 (Json.obj []) st0 (by decide), ?_, ?_⟩
  · have h := C4_amended_repair_loop.2.1 diamondEnv 1 (Json.obj []) st0 (some 1)
      { st0 with queries := st0.queries ++ [1] } (by rfl)
    simp only [st0] at h ⊢
    exact ⟨by simp, by omega, by omega, trivial⟩
  · exact C4_amended_repair_loop.2.2 diamondEnv (mkCard 4 []) false none false st0 (by rfl)

theorem mapLookup_mapSet (m : List (Nat × Nat)) (c v k : Nat) :
    mapLookup (mapSet m c v) k = if k = c then some v else mapLookup m k := by
  induction m with
  | nil =>
    simp only [mapSet, mapLookup]
    by_cases hk : k = c
    · subst hk; simp
    · rw [if_neg (Ne.symm hk), if_neg hk]
  | cons p rest ih =>
    by_cases hp : p.1 = c
    · simp only [mapSet, if_pos hp, mapLookup]
      by_cases hk : k = c
      · subst hk; simp
      · rw [if_neg (Ne.symm hk), if_neg hk, if_neg (by rw [hp]; exact Ne.symm hk)]
    · simp only [mapSet, if_neg hp, mapLookup]
      by_cases hpk : p.1 = k
      · have hkc : ¬k = c := by rw [← hpk]; exact hp
        rw [if_pos hpk, if_neg hkc, if_pos hpk]
      · rw [if_neg hpk, ih]
        by_cases hk : k = c
        · rw [if_pos hk, if_pos hk]
        · rw [if_neg hk, if_neg hk, if_neg hpk]

theorem countKey_zero_iff (m : List (Nat × Nat)) (k : Nat) :
    countKey m k = 0 ↔ mapLookup m k = none := by
  induction m with
  | nil => simp [countKey, mapLookup]
  | cons p rest ih =>
    by_cases hp : p.1 = k <;> simp [countKey, mapLookup, hp, ih]

theorem countKey_mapSet_ne (m : List (Nat × Nat)) (c v k : Nat) (h : k ≠ c) :
    countKey (mapSet m c v) k = countKey m k := by
  induction m with
  | nil =>
    simp only [mapSet, countKey]
    rw [if_neg (Ne.symm h)]
  | cons p rest ih =>
    by_cases hp : p.1 = c
    · simp only [mapSet, if_pos hp, countKey]
      rw [if_neg (Ne.symm h), if_neg (by rw [hp]; exact Ne.symm h)]
    · simp only [mapSet, if_neg hp, countKey, ih]

theorem countKey_mapSet_self_of_none (m : List (Nat × Nat)) (c v : Nat)
    (h : mapLookup m c = none) :
    countKey (mapSet m c v) c = 1 := by
  induction m with
  | nil => simp [mapSet, countKey]
  | cons p rest ih =>
    simp only [mapLookup] at h
    by_cases hp : p.1 = c
    · rw [if_pos hp] at h
      simp at h
    · rw [if_neg hp] at h
      simp only [mapSet, if_neg hp, countKey, if_neg hp, ih h]

theorem depsLoopF_protect
    (migrate : Nat → List Nat → St → Option (MigrationResponse × List Nat × St)) (k : Nat)
    (hm : ∀ d vv s out v' s', migrate d vv s = some (out, v', s') → k ∈ vv →
      (countKey s'.mapping k = countKey s.mapping k ∧
       mapLookup s'.mapping k = mapLookup s.mapping k) ∧ ∀ x ∈ vv, x ∈ v') :
    ∀ (deps : List Nat) (acc : List MigrationResponse) (vv : List Nat) (s : St)
      (res : MigrationResponse ⊕ List MigrationResponse) (v' : List Nat) (s' : St),
    depsLoopF migrate deps acc vv s = some (res, v', s') → k ∈ vv →
    (countKey s'.mapping k = countKey s.mapping k ∧
     mapLookup s'.mapping k = mapLookup s.mapping k) ∧ ∀ x ∈ vv, x ∈ v' := by
  intro deps
  induction deps with
  | nil =>
    intro acc vv s res v' s' h hk
    unfold depsLoopF at h
    obtain ⟨h4, h5⟩ := Prod.mk.inj (Option.some.inj h)
    obtain ⟨h6, h7⟩ := Prod.mk.inj h5
    subst h4; subst h6; subst h7
    exact ⟨⟨rfl, rfl⟩, fun x hx => hx⟩
  | cons d rest ih =>
    intro acc vv s res v' s' h hk
    unfold depsLoopF at h
    split at h
    · exact ih acc vv s res v' s' h hk
    · split at h
      · simp at h
      · rename_i out v1 s1 hmig
        split at h
        · obtain ⟨h4, h5⟩ := Prod.mk.inj (Option.some.inj h)
          obtain ⟨h6, h7⟩ := Prod.mk.inj h5
          subst h4; subst h6; subst h7
          obtain ⟨hc, hmono⟩ := hm d vv s out v1 s1 hmig hk
          exact ⟨hc, hmono⟩
        · obtain ⟨hc1, hmono1⟩ := hm d vv s out v1 s1 hmig hk
          obtain ⟨hc2, hmono2⟩ := ih (acc ++ [out]) v1 s1 res v' s' h (hmono1 k hk)
          exact ⟨⟨hc2.1.trans hc1.1, hc2.2.trans hc1.2⟩,
            fun x hx => hmono2 x (hmono1 x hx)⟩

theorem migrateCard_entry_ne (env : Env) (card : CardRec) (dryRun : Bool)
    (coll : Option Int) (force : Bool) (st : St) (k : Nat) (hk : k ≠ card.id) :
    countKey ((migrateCard env card dryRun coll force st).2).mapping k =
      countKey st.mapping k ∧
    mapLookup ((migrateCard env card dryRun coll force st).2).mapping k =
      mapLookup st.mapping k := by
  cases dryRun with
  | true =>
    have hs := migrateCard_spec env card true coll force st
    by_cases hok : (migrateCard env card true coll force st).1.status = .ok
    · rw [hs.2.1 hok rfl]; exact ⟨rfl, rfl⟩
    · rw [hs.1 hok]; exact ⟨rfl, rfl⟩
  | false =>
    have hs := migrateCard_spec env card false coll force st
    by_cases hok : (migrateCard env card false coll force st).1.status = .ok
    · obtain ⟨fid, hnew, hmap⟩ := hs.2.2.1 hok rfl
      rw [hmap, countKey_mapSet_ne _ _ _ _ hk, mapLookup_mapSet]
      exact ⟨rfl, if_neg hk⟩
    · rw [hs.1 hok]; exact ⟨rfl, rfl⟩

theorem getCardEnv_id (env : Env) (c : Nat) (card : CardRec)
    (h : getCardEnv env c = some card) : card.id = c := by
  unfold getCardEnv at h
  split at h
  · simp at h
  · simpa using List.find?_some h

theorem migrateF_protect (env : Env) (k : Nat) :
    ∀ (fuel : Nat) (c : Nat) (dR : Bool) (vis : List Nat) (coll : Option Int)
      (force : Bool) (s : St) (r : MigrationResponse) (v' : List Nat) (s' : St),
    migrateF env fuel c dR vis coll force s = some (r, v', s') → k ∈ vis →
    (countKey s'.mapping k = countKey s.mapping k ∧
     mapLookup s'.mapping k = mapLookup s.mapping k) ∧ ∀ x ∈ vis, x ∈ v' := by
  intro fuel
  induction fuel with
  | zero =>
    intro c dR vis coll force s r v' s' h hk
    simp [migrateF] at h
  | succ f ih =>
    intro c dR vis coll force s r v' s' h hk
    rw [migrateF] at h
    dsimp only at h
    have hckk : c ∈ vis ∨ c ∉ vis := em _
    split at h
    · obtain ⟨h4, h5⟩ := Prod.mk.inj (Option.some.inj h)
      obtain ⟨h6, h7⟩ := Prod.mk.inj h5
      subst h4; subst h6; subst h7
      exact ⟨⟨rfl, rfl⟩, fun x hx => hx⟩
    · rename_i hguard
      split at h
      · obtain ⟨h4, h5⟩ := Prod.mk.inj (Option.some.inj h)
        obtain ⟨h6, h7⟩ := Prod.mk.inj h5
        subst h4; subst h6; subst h7
        exact ⟨⟨rfl, rfl⟩, fun x hx => List.mem_append_left _ hx⟩
      · rename_i card hcard
        have hid : card.id = c := getCardEnv_id env c card hcard
        have hmarg : ∀ d vv ss o vv' ss',
            migrateF env f d dR vv coll false ss = some (o, vv', ss') → k ∈ vv →
            (countKey ss'.mapping k = countKey ss.mapping k ∧
             mapLookup ss'.mapping k = mapLookup ss.mapping k) ∧ ∀ x ∈ vv, x ∈ vv' :=
          fun d vv ss o vv' ss' hh hkk => ih d dR vv coll false ss o vv' ss' hh hkk
        split at h
        · simp at h
        · rename_i earlyFail visited1 st1 hloop
          obtain ⟨h4, h5⟩ := Prod.mk.inj (Option.some.inj h)
          obtain ⟨h6, h7⟩ := Prod.mk.inj h5
          subst h4; subst h6; subst h7
          have hker : k ∈ vis ++ [c] := List.mem_append_left _ hk
          obtain ⟨hc1, hm1⟩ := depsLoopF_protect _ k hmarg _ _ _ _ _ _ _ hloop hker
          exact ⟨hc1, fun x hx => hm1 x (List.mem_append_left _ hx)⟩
        · rename_i depResults visited1 st1 hloop
          have hker : k ∈ vis ++ [c] := List.mem_append_left _ hk
          obtain ⟨hc1, hm1⟩ := depsLoopF_protect _ k hmarg _ _ _ _ _ _ _ hloop hker
          have hkc : k ≠ card.id := hid.symm ▸ (fun he => hguard (he ▸ hk))
          split at h
          · rename_i newCardId hlk
            split at h
            · obtain ⟨h4, h5⟩ := Prod.mk.inj (Option.some.inj h)
              obtain ⟨h6, h7⟩ := Prod.mk.inj h5
              subst h4; subst h6; subst h7
              exact ⟨hc1, fun x hx => hm1 x (List.mem_append_left _ hx)⟩
            · obtain ⟨h4, h5⟩ := Prod.mk.inj (Option.some.inj h)
              obtain ⟨h6, h7⟩ := Prod.mk.inj h5
              subst h4; subst h6; subst h7
              refine ⟨?_, fun x hx => hm1 x (List.mem_append_left _ hx)⟩
              obtain ⟨hck, hlk2⟩ := migrateCard_entry_ne env card dR coll force st1 k hkc
              exact ⟨hck.trans hc1.1, hlk2.trans hc1.2⟩
          · obtain ⟨h4, h5⟩ := Prod.mk.inj (Option.some.inj h)
            obtain ⟨h6, h7⟩ := Prod.mk.inj h5
            subst h4; subst h6; subst h7
            refine ⟨?_, fun x hx => hm1 x (List.mem_append_left _ hx)⟩
            obtain ⟨hck, hlk2⟩ := migrateCard_entry_ne env card dR coll force st1 k hkc
            exact ⟨hck.trans hc1.1, hlk2.trans hc1.2⟩

/-- C3: whenever `migrateCardWithDependencies` returns a `failed` result,
the card-id mapping entry for that card is unchanged by the invocation -
same lookup value and same entry count - and the single `cardIdMapping.set`
on the successful non-dry-run `migrateCard` path is the only commit point:
whenever `migrateCard` does not return `ok`, the whole mapping is untouched. -/
theorem C3_failed_writes_no_mapping (env : Env) (fuel cardId : Nat)
    (dryRun : Bool) (vis : List Nat) (coll : Option Int) (force : Bool)
    (st : St) (r : MigrationResponse) (v' : List Nat) (st' : St)
    (h : migrateF env fuel cardId dryRun vis coll force st = some (r, v', st'))
    (hfail : r.status = .failed) :
    (mapLookup st'.mapping cardId = mapLookup st.mapping cardId ∧
     countKey st'.mapping cardId = countKey st.mapping cardId) ∧
    ∀ card st₀,
      (migrateCard env card dryRun coll force st₀).1.status ≠ .ok →
      (migrateCard env card dryRun coll force st₀).2.mapping = st₀.mapping := by
  refine ⟨?_, fun card st₀ hne =>
    (migrateCard_spec env card dryRun coll force st₀).1 hne⟩
  cases fuel with
  | zero => simp [migrateF] at h
  | succ f =>
    rw [migrateF] at h
    dsimp only at h
    have hmarg : ∀ d vv ss o vv' ss',
        migrateF env f d dryRun vv coll false ss = some (o, vv', ss') →
        cardId ∈ vv →
        (countKey ss'.mapping cardId = countKey ss.mapping cardId ∧
         mapLookup ss'.mapping cardId = mapLookup ss.mapping cardId) ∧
        ∀ x ∈ vv, x ∈ vv' :=
      fun d vv ss o vv' ss' hh hkk =>
        migrateF_protect env cardId f d dryRun vv coll false ss o vv' ss' hh hkk
    split at h
    · obtain ⟨h4, h5⟩ := Prod.mk.inj (Option.some.inj h)
      obtain ⟨h6, h7⟩ := Prod.mk.inj h5
      subst h4; subst h6; subst h7
      exact ⟨rfl, rfl⟩
    · rename_i hguard
      split at h
      · obtain ⟨h4, h5⟩ := Prod.mk.inj (Option.some.inj h)
        obtain ⟨h6, h7⟩ := Prod.mk.inj h5
        subst h4; subst h6; subst h7
        exact ⟨rfl, rfl⟩
      · rename_i card hcard
        split at h
        · simp at h
        · rename_i earlyFail visited1 st1 hloop
          obtain ⟨h4, h5⟩ := Prod.mk.inj (Option.some.inj h)
          obtain ⟨h6, h7⟩ := Prod.mk.inj h5
          subst h4; subst h6; subst h7
          have hker : cardId ∈ vis ++ [cardId] :=
            List.mem_append_right _ (by simp)
          obtain ⟨⟨hc1, hl1⟩, _⟩ :=
            depsLoopF_protect _ cardId hmarg _ _ _ _ _ _ _ hloop hker
          exact ⟨hl1, hc1⟩
        · rename_i depResults visited1 st1 hloop
          have hker : cardId ∈ vis ++ [cardId] :=
            List.mem_append_right _ (by simp)
          obtain ⟨⟨hc1, hl1⟩, _⟩ :=
            depsLoopF_protect _ cardId hmarg _ _ _ _ _ _ _ hloop hker
          split at h
          · rename_i newCardId hlk
            split at h
            · obtain ⟨h4, h5⟩ := Prod.mk.inj (Option.some.inj h)
              obtain ⟨h6, h7⟩ := Prod.mk.inj h5
              subst h4; subst h6; subst h7
              simp at hfail
            · obtain ⟨h4, h5⟩ := Prod.mk.inj (Option.some.inj h)
              obtain ⟨h6, h7⟩ := Prod.mk.inj h5
              subst h4; subst h6; subst h7
              rw [mergeResp_status] at hfail
              have hm2 := (migrateCard_spec env card dryRun coll force st1).1
                (by rw [hfail]; exact fun hcon => by cases hcon)
              rw [hm2]
              exact ⟨hl1, hc1⟩
          · obtain ⟨h4, h5⟩ := Prod.mk.inj (Option.some.inj h)
            obtain ⟨h6, h7⟩ := Prod.mk.inj h5
            subst h4; subst h6; subst h7
            rw [mergeResp_status] at hfail
            have hm2 := (migrateCard_spec env card dryRun coll force st1).1
              (by rw [hfail]; exact fun hcon => by cases hcon)
            rw [hm2]
            exact ⟨hl1, hc1⟩

theorem C3_failed_writes_no_mapping_witness :
    ((mapLookup ({ st0 with mbqlMap := st0.mapping } : St).mapping 99 =
        mapLookup st0.mapping 99 ∧
      countKey ({ st0 with mbqlMap := st0.mapping } : St).mapping 99 =
        countKey st0.mapping 99) ∧
     ∀ card st₀,
       (migrateCard diamondEnv card false none false st₀).1.status ≠ .ok →
       (migrateCard diamondEnv card false none false st₀).2.mapping =
         st₀.mapping) :=
  C3_failed_writes_no_mapping diamondEnv 1 99 false [] none false st0
    (failResp .METABASE_API_ERROR "Failed to fetch card 99") [99]
    { st0 with mbqlMap := st0.mapping } (by rfl) (by rfl)

theorem migrateCard_pres (env : Env) (card : CardRec) (dR : Bool)
    (coll : Option Int) (force : Bool) (st : St) (k w : Nat)
    (hnone : mapLookup st.mapping card.id = none)
    (hw : mapLookup st.mapping k = some w) :
    mapLookup ((migrateCard env card dR coll force st).2).mapping k = some w := by
  have hkne : k ≠ card.id := fun he => by rw [he, hnone] at hw; cases hw
  cases dR with
  | true =>
    have hs := migrateCard_spec env card true coll force st
    by_cases hok : (migrateCard env card true coll force st).1.status = .ok
    · rw [hs.2.1 hok rfl]; exact hw
    · rw [hs.1 hok]; exact hw
  | false =>
    have hs := migrateCard_spec env card false coll force st
    by_cases hok : (migrateCard env card false coll force st).1.status = .ok
    · obtain ⟨fid, hnew, hmap⟩ := hs.2.2.1 hok rfl
      rw [hmap, mapLookup_mapSet, if_neg hkne]; exact hw
    · rw [hs.1 hok]; exact hw

theorem depsLoopF_pres
    (migrate : Nat → List Nat → St → Option (MigrationResponse × List Nat × St))
    (k w : Nat)
    (hm : ∀ d vv ss o vv' ss', migrate d vv ss = some (o, vv', ss') →
      mapLookup ss.mapping k = some w → mapLookup ss'.mapping k = some w) :
    ∀ (deps : List Nat) (acc : List MigrationResponse) (vv : List Nat) (s : St)
      (res : MigrationResponse ⊕ List MigrationResponse) (v' : List Nat) (s' : St),
    depsLoopF migrate deps acc vv s = some (res, v', s') →
    mapLookup s.mapping k = some w → mapLookup s'.mapping k = some w := by
  intro deps
  induction deps with
  | nil =>
    intro acc vv s res v' s' h hw
    unfold depsLoopF at h
    obtain ⟨h4, h5⟩ := Prod.mk.inj (Option.some.inj h)
    obtain ⟨h6, h7⟩ := Prod.mk.inj h5
    subst h7
    exact hw
  | cons d rest ih =>
    intro acc vv s res v' s' h hw
    unfold depsLoopF at h
    split at h
    · exact ih acc vv s res v' s' h hw
    · split at h
      · simp at h
      · rename_i out v1 s1 hmig
        split at h
        · obtain ⟨h4, h5⟩ := Prod.mk.inj (Option.some.inj h)
          obtain ⟨h6, h7⟩ := Prod.mk.inj h5
          subst h7
          exact hm d vv s out v1 s1 hmig hw
        · exact ih (acc ++ [out]) v1 s1 res v' s' h (hm d vv s out v1 s1 hmig hw)

theorem migrateF_pres (env : Env) (k w : Nat) :
    ∀ (fuel : Nat) (c : Nat) (dR : Bool) (vis : List Nat) (coll : Option Int)
      (s : St) (r : MigrationResponse) (v' : List Nat) (s' : St),
    migrateF env fuel c dR vis coll false s = some (r, v', s') →
    mapLookup s.mapping k = some w → mapLookup s'.mapping k = some w := by
  intro fuel
  induction fuel with
  | zero =>
    intro c dR vis coll s r v' s' h hw
    simp [migrateF] at h
  | succ f ih =>
    intro c dR vis coll s r v' s' h hw
    rw [migrateF] at h
    dsimp only at h
    have hmarg : ∀ d vv ss o vv' ss',
        migrateF env f d dR vv coll false ss = some (o, vv', ss') →
        mapLookup ss.mapping k = some w → mapLookup ss'.mapping k = some w :=
      fun d vv ss o vv' ss' hh hww => ih d dR vv coll ss o vv' ss' hh hww
    split at h
    · obtain ⟨h4, h5⟩ := Prod.mk.inj (Option.some.inj h)
      obtain ⟨h6, h7⟩ := Prod.mk.inj h5
      subst h7
      exact hw
    · rename_i hguard
      split at h
      · obtain ⟨h4, h5⟩ := Prod.mk.inj (Option.some.inj h)
        obtain ⟨h6, h7⟩ := Prod.mk.inj h5
        subst h7
        exact hw
      · rename_i card hcard
        have hid : card.id = c := getCardEnv_id env c card hcard
        split at h
        · simp at h
        · rename_i earlyFail visited1 st1 hloop
          obtain ⟨h4, h5⟩ := Prod.mk.inj (Option.some.inj h)
          obtain ⟨h6, h7⟩ := Prod.mk.inj h5
          subst h7
          exact depsLoopF_pres _ k w hmarg _ _ _ _ _ _ _ hloop hw
        · rename_i depResults visited1 st1 hloop
          have hpre : mapLookup st1.mapping k = some w :=
            depsLoopF_pres _ k w hmarg _ _ _ _ _ _ _ hloop hw
          split at h
          · rename_i newCardId hlk
            split at h
            · obtain ⟨h4, h5⟩ := Prod.mk.inj (Option.some.inj h)
              obtain ⟨h6, h7⟩ := Prod.mk.inj h5
              subst h7
              exact hpre
            · rename_i hcon
              exact absurd (by decide : ¬ false = true) hcon
          · rename_i hlk
            obtain ⟨h4, h5⟩ := Prod.mk.inj (Option.some.inj h)
            obtain ⟨h6, h7⟩ := Prod.mk.inj h5
            subst h7
            exact migrateCard_pres env card dR coll false st1 k w
              (hid.symm ▸ hlk) hpre

theorem depsLoopF_inl_failed
    (migrate : Nat → List Nat → St → Option (MigrationResponse × List Nat × St)) :
    ∀ (deps : List Nat) (acc : List MigrationResponse) (vv : List Nat) (s : St)
      (e : MigrationResponse) (v' : List Nat) (s' : St),
    depsLoopF migrate deps acc vv s = some (.inl e, v', s') →
    e.status = .failed := by
  intro deps
  induction deps with
  | nil =>
    intro acc vv s e v' s' h
    simp [depsLoopF] at h
  | cons d rest ih =>
    intro acc vv s e v' s' h
    unfold depsLoopF at h
    split at h
    · exact ih acc vv s e v' s' h
    · split at h
      · simp at h
      · rename_i out v1 s1 hmig
        split at h
        · obtain ⟨h4, h5⟩ := Prod.mk.inj (Option.some.inj h)
          have h8 := Sum.inl.inj h4
          rw [h8.symm]
          simp
        · exact ih (acc ++ [out]) v1 s1 e v' s' h

theorem migrateF_nonfailed_mapped (env : Env) (fuel : Nat) (c : Nat)
    (vis : List Nat) (coll : Option Int) (s : St) (r : MigrationResponse)
    (v' : List Nat) (s' : St)
    (h : migrateF env fuel c false vis coll false s = some (r, v', s'))
    (hnf : r.status ≠ .failed) :
    (mapLookup s'.mapping c).isSome = true := by
  cases fuel with
  | zero => simp [migrateF] at h
  | succ f =>
    rw [migrateF] at h
    dsimp only at h
    split at h
    · obtain ⟨h4, h5⟩ := Prod.mk.inj (Option.some.inj h)
      rw [h4.symm] at hnf
      simp at hnf
    · rename_i hguard
      split at h
      · obtain ⟨h4, h5⟩ := Prod.mk.inj (Option.some.inj h)
        rw [h4.symm] at hnf
        simp at hnf
      · rename_i card hcard
        have hid : card.id = c := getCardEnv_id env c card hcard
        split at h
        · simp at h
        · rename_i earlyFail visited1 st1 hloop
          obtain ⟨h4, h5⟩ := Prod.mk.inj (Option.some.inj h)
          rw [h4.symm] at hnf
          exact absurd (depsLoopF_inl_failed _ _ _ _ _ _ _ _ hloop) hnf
        · rename_i depResults visited1 st1 hloop
          split at h
          · rename_i newCardId hlk
            split at h
            · obtain ⟨h4, h5⟩ := Prod.mk.inj (Option.some.inj h)
              obtain ⟨h6, h7⟩ := Prod.mk.inj h5
              subst h7
              rw [hlk]
              rfl
            · rename_i hcon
              exact absurd (by decide : ¬ false = true) hcon
          · rename_i hlk
            obtain ⟨h4, h5⟩ := Prod.mk.inj (Option.some.inj h)
            obtain ⟨h6, h7⟩ := Prod.mk.inj h5
            subst h7
            rw [h4.symm, mergeResp_status] at hnf
            have hs := migrateCard_spec env card false coll false st1
            cases hstat : (migrateCard env card false coll false st1).1.status with
            | failed => exact absurd hstat hnf
            | already_migrated => exact absurd hstat hs.2.2.2.2
            | ok =>
              obtain ⟨fid, hnew, hmap⟩ := hs.2.2.1 hstat rfl
              rw [hmap, mapLookup_mapSet, if_pos hid.symm]
              rfl

theorem depsLoopF_skip_all
    (migrate : Nat → List Nat → St → Option (MigrationResponse × List Nat × St)) :
    ∀ (deps : List Nat) (acc : List MigrationResponse) (vv : List Nat) (s : St),
    (∀ d ∈ deps, mapHas s.mapping d = true) →
    depsLoopF migrate deps acc vv s = some (.inr acc, vv, s) := by
  intro deps
  induction deps with
  | nil => intro acc vv s hall; rfl
  | cons d rest ih =>
    intro acc vv s hall
    unfold depsLoopF
    rw [if_pos (hall d (List.mem_cons_self d rest))]
    exact ih acc vv s (fun x hx => hall x (List.mem_cons_of_mem d hx))

theorem depsLoopF_deps_mapped
    (migrate : Nat → List Nat → St → Option (MigrationResponse × List Nat × St))
    (hm1 : ∀ d vv ss o vv' ss', migrate d vv ss = some (o, vv', ss') →
      o.status ≠ .failed → (mapLookup ss'.mapping d).isSome = true)
    (hm2 : ∀ d vv ss o vv' ss' k w, migrate d vv ss = some (o, vv', ss') →
      mapLookup ss.mapping k = some w → mapLookup ss'.mapping k = some w) :
    ∀ (deps : List Nat) (acc : List MigrationResponse) (vv : List Nat) (s : St)
      (res : List MigrationResponse) (v' : List Nat) (s' : St),
    depsLoopF migrate deps acc vv s = some (.inr res, v', s') →
    ∀ d ∈ deps, (mapLookup s'.mapping d).isSome = true := by
  intro deps
  induction deps with
  | nil =>
    intro acc vv s res v' s' h d hd
    cases hd
  | cons d rest ih =>
    intro acc vv s res v' s' h d' hd'
    unfold depsLoopF at h
    split at h
    · rename_i hhas
      rcases List.mem_cons.mp hd' with heq | hmem
      · subst heq
        obtain ⟨w, hw⟩ := Option.isSome_iff_exists.mp hhas
        have := depsLoopF_pres migrate d' w
          (fun a vv ss o vv' ss' hh hww => hm2 a vv ss o vv' ss' d' w hh hww)
          rest acc vv s (.inr res) v' s' h hw
        rw [this]; rfl
      · exact ih acc vv s res v' s' h d' hmem
    · split at h
      · simp at h
      · rename_i out v1 s1 hmig
        split at h
        · simp at h
        · rename_i hnf
          rcases List.mem_cons.mp hd' with heq | hmem
          · subst heq
            have hbase := hm1 d' vv s out v1 s1 hmig hnf
            obtain ⟨w, hw⟩ := Option.isSome_iff_exists.mp hbase
            have := depsLoopF_pres migrate d' w
              (fun a vv ss o vv' ss' hh hww => hm2 a vv ss o vv' ss' d' w hh hww)
              rest (acc ++ [out]) v1 s1 (.inr res) v' s' h hw
            rw [this]; rfl
          · exact ih (acc ++ [out]) v1 s1 res v' s' h d' hmem

theorem migrateF_ok_first (env : Env) (fuel cardId : Nat) (vis : List Nat)
    (coll : Option Int) (s : St) (r : MigrationResponse) (v' : List Nat) (s' : St)
    (h : migrateF env fuel cardId false vis coll false s = some (r, v', s'))
    (hok : r.status = .ok) :
    ∃ card fid,
      getCardEnv env cardId = some card ∧
      r.newId = some fid ∧
      mapLookup s'.mapping cardId = some fid ∧
      countKey s'.mapping cardId = 1 ∧
      ∀ d ∈ extractCardReferences (card.dataset_query.getD .null),
        mapHas s'.mapping d = true := by
  cases fuel with
  | zero => simp [migrateF] at h
  | succ f =>
    rw [migrateF] at h
    dsimp only at h
    split at h
    · obtain ⟨h4, h5⟩ := Prod.mk.inj (Option.some.inj h)
      rw [h4.symm] at hok
      simp at hok
    · rename_i hguard
      split at h
      · obtain ⟨h4, h5⟩ := Prod.mk.inj (Option.some.inj h)
        rw [h4.symm] at hok
        simp at hok
      · rename_i card hcard
        have hid : card.id = cardId := getCardEnv_id env cardId card hcard
        split at h
        · simp at h
        · rename_i earlyFail visited1 st1 hloop
          obtain ⟨h4, h5⟩ := Prod.mk.inj (Option.some.inj h)
          rw [h4.symm, depsLoopF_inl_failed _ _ _ _ _ _ _ _ hloop] at hok
          cases hok
        · rename_i depResults visited1 st1 hloop
          split at h
          · rename_i newCardId hlk
            split at h
            · obtain ⟨h4, h5⟩ := Prod.mk.inj (Option.some.inj h)
              rw [h4.symm] at hok
              simp at hok
            · rename_i hcon
              exact absurd (by decide : ¬ false = true) hcon
          · rename_i hlk
            obtain ⟨h4, h5⟩ := Prod.mk.inj (Option.some.inj h)
            obtain ⟨h6, h7⟩ := Prod.mk.inj h5
            subst h7
            rw [h4.symm, mergeResp_status] at hok
            have hs := migrateCard_spec env card false coll false st1
            obtain ⟨fid, hnew, hmap⟩ := hs.2.2.1 hok rfl
            refine ⟨card, fid, hcard, ?_, ?_, ?_, ?_⟩
            · rw [h4.symm, mergeResp_newId]; exact hnew
            · rw [hmap, mapLookup_mapSet, if_pos hid.symm]
            · rw [hmap, hid]
              exact countKey_mapSet_self_of_none st1.mapping cardId fid
                (hid ▸ hlk)
            · intro d hd
              have hbase := depsLoopF_deps_mapped
                (fun depId v s => migrateF env f depId false v coll false s)
                (fun d vv ss o vv' ss' hh hnf =>
                  migrateF_nonfailed_mapped env f d vv coll ss o vv' ss' hh hnf)
                (fun d vv ss o vv' ss' k w hh hww =>
                  migrateF_pres env k w f d false vv coll ss o vv' ss' hh hww)
                _ _ _ _ _ _ _ hloop d hd
              unfold mapHas
              rw [hmap, mapLookup_mapSet]
              by_cases hdc : d = card.id
              · rw [if_pos hdc]; rfl
              · rw [if_neg hdc]; exact hbase

/-- C2: calling `migrateCardWithDependencies(id, dryRun := false)` twice
without `force`, where the first call returns `ok`, yields
`already_migrated` on the second call carrying the same target id the
first call created; after the first call the card-id mapping holds
exactly one entry for `id` (pointing at that target), and the second
call leaves the mapping unchanged. -/
theorem C2_idempotent_rerun (env : Env) (fuel₁ fuel₂ cardId : Nat) (st : St)
    (r₁ r₂ : MigrationResponse) (v₁ v₂ : List Nat) (s₁ s₂ : St)
    (h₁ : migrateTop env fuel₁ cardId false st = some (r₁, v₁, s₁))
    (hok : r₁.status = .ok)
    (h₂ : migrateTop env fuel₂ cardId false s₁ = some (r₂, v₂, s₂)) :
    r₂.status = .already_migrated ∧
    r₁.newId.isSome = true ∧
    r₂.newId = r₁.newId ∧
    mapLookup s₁.mapping cardId = r₁.newId ∧
    countKey s₁.mapping cardId = 1 ∧
    s₂.mapping = s₁.mapping := by
  obtain ⟨card, fid, hcard, hnew, hlk1, hcnt, hdeps⟩ :=
    migrateF_ok_first env fuel₁ cardId [] none st r₁ v₁ s₁ h₁ hok
  unfold migrateTop at h₂
  cases fuel₂ with
  | zero => simp [migrateF] at h₂
  | succ f =>
    rw [migrateF] at h₂
    dsimp only at h₂
    rw [if_neg (List.not_mem_nil cardId)] at h₂
    rw [hcard] at h₂
    dsimp only at h₂
    rw [depsLoopF_skip_all
      (fun depId v s => migrateF env f depId false v none false s)
      (extractCardReferences (card.dataset_query.getD .null)) []
      ([] ++ [cardId]) { s₁ with mbqlMap := s₁.mapping }
      (fun d hd => hdeps d hd)] at h₂
    dsimp only at h₂
    rw [hlk1] at h₂
    dsimp only at h₂
    rw [if_pos (by decide : ¬ false = true)] at h₂
    obtain ⟨h4, h5⟩ := Prod.mk.inj (Option.some.inj h₂)
    obtain ⟨h6, h7⟩ := Prod.mk.inj h5
    subst h7
    refine ⟨?_, ?_, ?_, ?_, hcnt, rfl⟩
    · rw [h4.symm]; simp
    · rw [hnew]; rfl
    · rw [h4.symm, hnew]; simp
    · rw [hnew, hlk1]

theorem C2_idempotent_rerun_witness :
    (alreadyResp diamondEnv 4 (mkCard 4 []).name 100 (mkCard 4 []).dataset_query
        []).status = .already_migrated ∧
    (mergeResp (migrateCard diamondEnv (mkCard 4 []) false none false st0).1 4
        (mkCard 4 []).name (mkCard 4 []).dataset_query []).newId.isSome = true ∧
    (alreadyResp diamondEnv 4 (mkCard 4 []).name 100 (mkCard 4 []).dataset_query
        []).newId =
      (mergeResp (migrateCard diamondEnv (mkCard 4 []) false none false st0).1 4
        (mkCard 4 []).name (mkCard 4 []).dataset_query []).newId ∧
    mapLookup ((migrateCard diamondEnv (mkCard 4 []) false none false st0).2).mapping 4 =
      (mergeResp (migrateCard diamondEnv (mkCard 4 []) false none false st0).1 4
        (mkCard 4 []).name (mkCard 4 []).dataset_query []).newId ∧
    countKey ((migrateCard diamondEnv (mkCard 4 []) false none false st0).2).mapping 4 = 1 ∧
    ({ (migrateCard diamondEnv (mkCard 4 []) false none false st0).2 with
        mbqlMap := ((migrateCard diamondEnv (mkCard 4 []) false none false st0).2).mapping } : St).mapping =
      ((migrateCard diamondEnv (mkCard 4 []) false none false st0).2).mapping :=
  C2_idempotent_rerun diamondEnv 1 1 4 st0
    (mergeResp (migrateCard diamondEnv (mkCard 4 []) false none false st0).1 4
      (mkCard 4 []).name (mkCard 4 []).dataset_query [])
    (alreadyResp diamondEnv 4 (mkCard 4 []).name 100 (mkCard 4 []).dataset_query [])
    [4] [4]
    ((migrateCard diamondEnv (mkCard 4 []) false none false st0).2)
    ({ (migrateCard diamondEnv (mkCard 4 []) false none false st0).2 with
        mbqlMap := ((migrateCard diamondEnv (mkCard 4 []) false none false st0).2).mapping })
    (by rfl) (by rfl) (by rfl)

theorem take_succ_getD (l : List Nat) (j : Nat) (hj : j < l.length) :
    l.take j ++ [l.getD j 0] = l.take (j + 1) := by
  rw [List.take_succ, List.getElem?_eq_getElem hj, List.getD_eq_getElem l 0 hj]
  rfl

theorem getD_mem (l : List Nat) (j : Nat) (hj : j < l.length) :
    l.getD j 0 ∈ l := by
  rw [List.getD_eq_getElem l 0 hj]
  exact List.getElem_mem hj

theorem getD_not_mem_take (l : List Nat) (hnd : l.Nodup) (j : Nat)
    (hj : j < l.length) : l.getD j 0 ∉ l.take j := by
  rw [List.getD_eq_getElem l 0 hj]
  intro hmem
  rw [List.mem_take_iff_getElem] at hmem
  obtain ⟨i, hi, heq⟩ := hmem
  have hij : i = j := (List.Nodup.getElem_inj_iff hnd).mp heq
  omega

theorem getD_rotate (l : List Nat) (i j : Nat) (hj : j < l.length) :
    (l.rotate i).getD j 0 = l.getD ((j + i) % l.length) 0 := by
  have hj' : j < (l.rotate i).length := by rw [List.length_rotate]; exact hj
  have hm : (j + i) % l.length < l.length := Nat.mod_lt _ (by omega)
  rw [List.getD_eq_getElem _ 0 hj', List.getD_eq_getElem l 0 hm]
  have := List.get_rotate l i ⟨j, hj'⟩
  simpa using this

theorem CycleHyps_rotate (env : Env) (m : List (Nat × Nat)) (cyc : List Nat)
    (h : CycleHyps env m cyc) (i : Nat) : CycleHyps env m (cyc.rotate i) := by
  obtain ⟨h2, hnd, hall⟩ := h
  have hlen : (cyc.rotate i).length = cyc.length := List.length_rotate _ _
  refine ⟨by rw [hlen]; exact h2, List.nodup_rotate.mpr hnd, ?_⟩
  intro j hj
  rw [hlen] at hj ⊢
  have hji : (j + i) % cyc.length < cyc.length := Nat.mod_lt _ (by omega)
  obtain ⟨hnone, card, hcard, hdeps⟩ := hall ((j + i) % cyc.length) hji
  rw [getD_rotate cyc i j hj]
  refine ⟨hnone, card, hcard, ?_⟩
  rw [hdeps]
  have hj1 : (j + 1) % cyc.length < cyc.length := Nat.mod_lt _ (by omega)
  rw [getD_rotate cyc i ((j + 1) % cyc.length) hj1]
  have : ((j + i) % cyc.length + 1) % cyc.length =
      ((j + 1) % cyc.length + i) % cyc.length := by
    rw [Nat.mod_add_mod, Nat.mod_add_mod]
    have : j + i + 1 = j + 1 + i := by omega
    rw [this]
  rw [this]

theorem cycleDescend (env : Env) (m : List (Nat × Nat)) (cyc : List Nat)
    (hC : CycleHyps env m cyc) (dR : Bool) (coll : Option Int) :
    ∀ n j, j < cyc.length → cyc.length - 1 - j = n →
    ∀ fuel, cyc.length - j + 1 ≤ fuel → ∀ (force : Bool) (s : St),
    s.mapping = m →
    ∃ r v' s',
      migrateF env fuel (cyc.getD j 0) dR (cyc.take j) coll force s =
        some (r, v', s') ∧
      r.status = .failed ∧
      r.errorCode = some .DEPENDENCY_NOT_MIGRATED ∧
      r.innermost.errorCode = some .UNKNOWN_ERROR ∧
      r.innermost.message = some "Circular dependency detected" ∧
      s'.mapping = m := by
  obtain ⟨hlen2, hnd, hall⟩ := hC
  intro n
  induction n with
  | zero =>
    intro j hj hn fuel hfuel force s hs
    obtain ⟨f, rfl⟩ : ∃ f, fuel = f + 1 := ⟨fuel - 1, by omega⟩
    obtain ⟨g, rfl⟩ : ∃ g, f = g + 1 := ⟨f - 1, by omega⟩
    obtain ⟨hnonej, card, hcard, hdeps⟩ := hall j hj
    have hj1 : j + 1 = cyc.length := by omega
    have hmod : (j + 1) % cyc.length = 0 := by rw [hj1, Nat.mod_self]
    rw [hmod] at hdeps
    have h0 : 0 < cyc.length := by omega
    obtain ⟨hnone0, card0, hcard0, hdeps0⟩ := hall 0 h0
    have htake : cyc.take j ++ [cyc.getD j 0] = cyc.take (j + 1) :=
      take_succ_getD cyc j hj
    have hmem0 : cyc.getD 0 0 ∈ cyc.take j ++ [cyc.getD j 0] := by
      rw [htake, hj1, List.take_length]
      exact getD_mem cyc 0 h0
    have hwrap : migrateF env (g + 1) (cyc.getD 0 0) dR
        (cyc.take j ++ [cyc.getD j 0]) coll false
        { s with mbqlMap := s.mapping } =
        some (failResp .UNKNOWN_ERROR "Circular dependency detected",
          cyc.take j ++ [cyc.getD j 0],
          { mapping := s.mapping, mbqlMap := s.mapping, ops := s.ops,
            queries := s.queries }) := by
      rw [migrateF]
      dsimp only
      rw [if_pos hmem0]
    have hnotHas : ¬ (mapHas (({ s with mbqlMap := s.mapping } : St).mapping)
        (cyc.getD 0 0) = true) := by
      show ¬ (mapHas s.mapping (cyc.getD 0 0) = true)
      rw [hs]
      unfold mapHas
      rw [hnone0]
      simp
    have hloop : depsLoopF
        (fun depId v s => migrateF env (g + 1) depId dR v coll false s)
        [cyc.getD 0 0] [] (cyc.take j ++ [cyc.getD j 0])
        { s with mbqlMap := s.mapping } =
        some (.inl (depFailResp (cyc.getD 0 0)
            (failResp .UNKNOWN_ERROR "Circular dependency detected")),
          cyc.take j ++ [cyc.getD j 0],
          { mapping := s.mapping, mbqlMap := s.mapping, ops := s.ops,
            queries := s.queries }) := by
      unfold depsLoopF
      rw [if_neg hnotHas]
      rw [hwrap]
      rfl
    refine ⟨depFailResp (cyc.getD 0 0)
        (failResp .UNKNOWN_ERROR "Circular dependency detected"),
      cyc.take j ++ [cyc.getD j 0],
      { mapping := s.mapping, mbqlMap := s.mapping, ops := s.ops,
        queries := s.queries }, ?_, rfl, rfl, ?_, ?_, hs⟩
    · rw [migrateF]
      dsimp only
      rw [if_neg (getD_not_mem_take cyc hnd j hj)]
      rw [hcard]
      dsimp only
      rw [hdeps]
      rw [hloop]
    · rw [depFailResp_innermost, failResp_innermost]
      rfl
    · rw [depFailResp_innermost, failResp_innermost]
      rfl
  | succ nn ih =>
    intro j hj hn fuel hfuel force s hs
    obtain ⟨f, rfl⟩ : ∃ f, fuel = f + 1 := ⟨fuel - 1, by omega⟩
    obtain ⟨hnonej, card, hcard, hdeps⟩ := hall j hj
    have hj1 : j + 1 < cyc.length := by omega
    have hmod : (j + 1) % cyc.length = j + 1 := Nat.mod_eq_of_lt hj1
    rw [hmod] at hdeps
    obtain ⟨hnone1, _⟩ := hall (j + 1) hj1
    have htake : cyc.take j ++ [cyc.getD j 0] = cyc.take (j + 1) :=
      take_succ_getD cyc j hj
    obtain ⟨rin, vin, sin, hin, hfailin, hcodein, hinn1, hinn2, hsin⟩ :=
      ih (j + 1) hj1 (by omega) f (by omega) false
        { s with mbqlMap := s.mapping } hs
    have hnotHas : ¬ (mapHas (({ s with mbqlMap := s.mapping } : St).mapping)
        (cyc.getD (j + 1) 0) = true) := by
      show ¬ (mapHas s.mapping (cyc.getD (j + 1) 0) = true)
      rw [hs]
      unfold mapHas
      rw [hnone1]
      simp
    have hloop : depsLoopF
        (fun depId v s => migrateF env f depId dR v coll false s)
        [cyc.getD (j + 1) 0] [] (cyc.take j ++ [cyc.getD j 0])
        { s with mbqlMap := s.mapping } =
        some (.inl (depFailResp (cyc.getD (j + 1) 0) rin), vin, sin) := by
      unfold depsLoopF
      rw [if_neg hnotHas]
      rw [htake]
      rw [hin]
      dsimp only
      rw [if_pos hfailin]
    refine ⟨depFailResp (cyc.getD (j + 1) 0) rin, vin, sin, ?_, rfl, rfl,
      ?_, ?_, hsin⟩
    · rw [migrateF]
      dsimp only
      rw [if_neg (getD_not_mem_take cyc hnd j hj)]
      rw [hcard]
      dsimp only
      rw [hdeps]
      rw [hloop]
    · rw [depFailResp_innermost]
      exact hinn1
    · rw [depFailResp_innermost]
      exact hinn2

/-- C1 (amended): for every card set whose references form a cycle of
length ≥ 2, `migrateCardWithDependencies` on any member (visited
pre-seeded empty at the top-level call) terminates once the recursion
depth bound exceeds the cycle length, returning a `failed` result whose
error code is `DEPENDENCY_NOT_MIGRATED` and whose innermost detail is the
cycle-guard response `UNKNOWN_ERROR` / "Circular dependency detected"
(there is no `CircularDependency` member in `MigrationErrorCode`); no
mapping entry is written. -/
theorem C1_amended_cycle_termination (env : Env) (cyc : List Nat) (st : St)
    (hC : CycleHyps env st.mapping cyc) (i : Nat) (hi : i < cyc.length)
    (fuel : Nat) (hfuel : cyc.length + 1 ≤ fuel) (dR : Bool) :
    ∃ r v' s',
      migrateTop env fuel (cyc.getD i 0) dR st = some (r, v', s') ∧
      r.status = .failed ∧
      r.errorCode = some .DEPENDENCY_NOT_MIGRATED ∧
      r.innermost.errorCode = some .UNKNOWN_ERROR ∧
      r.innermost.message = some "Circular dependency detected" ∧
      s'.mapping = st.mapping := by
  have h2 := hC.1
  have hC' := CycleHyps_rotate env st.mapping cyc hC i
  have hlen : (cyc.rotate i).length = cyc.length := List.length_rotate _ _
  have h0 : 0 < (cyc.rotate i).length := by omega
  obtain ⟨r, v', s', hcall, hp1, hp2, hp3, hp4, hp5⟩ :=
    cycleDescend env st.mapping (cyc.rotate i) hC' dR none
      ((cyc.rotate i).length - 1) 0 h0 rfl fuel (by omega) false st rfl
  rw [List.take_zero] at hcall
  have hid : (cyc.rotate i).getD 0 0 = cyc.getD i 0 := by
    rw [getD_rotate cyc i 0 (by omega)]
    rw [Nat.zero_add, Nat.mod_eq_of_lt hi]
  rw [hid] at hcall
  exact ⟨r, v', s', hcall, hp1, hp2, hp3, hp4, hp5⟩

theorem C1_amended_cycle_termination_witness :
    ∃ r v' s',
      migrateTop cycleEnv 3 ([7, 8].getD 0 0) false st0 = some (r, v', s') ∧
      r.status = .failed ∧
      r.errorCode = some .DEPENDENCY_NOT_MIGRATED ∧
      r.innermost.errorCode = some .UNKNOWN_ERROR ∧
      r.innermost.message = some "Circular dependency detected" ∧
      s'.mapping = st0.mapping :=
  C1_amended_cycle_termination cycleEnv [7, 8] st0
    (by
      refine ⟨by decide, by decide, ?_⟩
      intro j hj
      have hj2 : j < 2 := by simpa using hj
      interval_cases j
      · exact ⟨rfl, mkCard 7 [8], rfl, rfl⟩
      · exact ⟨rfl, mkCard 8 [7], rfl, rfl⟩)
    0 (by decide) 3 (by decide) false

end MM
